import Mathlib

/-!
Verification development for the neuromaps-prime transform-graph core.

This file gives a shallow embedding, in Lean, of the resource cache,
multigraph, path resolver and surface transform composer implemented in
`src/neuromaps_prime/graph/` (modules `methods/cache.py`, `methods/fetchers.py`,
`utils.py`, `core.py`, `builder.py`, `transforms/surface.py`), together with
theorems about that embedding.

Modelling conventions:
* Python strings are Lean `String`; `str.lower` is modelled by `String.toLower`
  (the strings used by the program are ASCII).
* Python `dict` is an association list with insert-or-overwrite that keeps the
  original position of an overwritten key and appends fresh keys, matching
  CPython insertion-order semantics.
* Python `float` weights are modelled by `Rat`; every weight the program
  constructs is a small integer (`1.0`, `float(hop_idx)`), which `Rat`
  represents exactly.
* Raised exceptions are an explicit `PyErr` value; mutations performed before
  the raise are kept, so every stateful operation returns
  `Except PyErr result × state`.
* External collaborator operations (the workbench sphere project-unproject
  call) are an opaque function argument of type `ExtOp`; filesystem existence
  checks performed by the collaborators are part of that opaque boundary.
-/

namespace Neuromaps

/-! ### Shared string constants (niladic helpers for literals) -/

def empty_str : String := ""

def slash_str : String := "/"

def dot_str : String := "."

def sphere_str : String := "sphere"

def left_str : String := "left"

def right_str : String := "right"

def surface_to_surface_key : String := "surface_to_surface"

def volume_to_volume_key : String := "volume_to_volume"

/-- Models Python `str.lower` for the ASCII strings used by the program.
(Character-list implementation so that the kernel can evaluate it.) -/
def pyLower (s : String) : String := String.mk (s.data.map Char.toLower)

/-- `str.endswith`. -/
def pyEndsWith (s suffix : String) : Bool := suffix.data.isSuffixOf s.data

/-- `str.rstrip` restricted to a character predicate (as used for `"kK"`). -/
def pyDropRightWhile (s : String) (p : Char → Bool) : String :=
  String.mk ((s.data.reverse.dropWhile p).reverse)

/-- Value of a nonempty digit string (`none` on a non-digit). -/
def parseNat? (cs : List Char) : Option Nat :=
  if cs.isEmpty then none
  else
    cs.foldl
      (fun acc c =>
        match acc with
        | none => none
        | some n => if c.isDigit then some (n * 10 + (c.toNat - 48)) else none)
      (some 0)

/-- Python `int(s)` for the optionally-signed digit strings the program
compares densities with; `none` models the `ValueError` on anything else. -/
def pyInt? (s : String) : Option Int :=
  match s.data with
  | [] => none
  | c :: rest =>
    if c == Char.ofNat 45 then (parseNat? rest).map (fun n => -(n : Int))
    else (parseNat? (c :: rest)).map (fun n => (n : Int))

/-! ### Data model (`neuromaps_prime/graph/models.py`)

The `file_path : Path` field is kept as a string; the eager file-existence
check performed by pydantic at construction time touches the filesystem and is
treated as an external collaborator concern (all artifact paths referenced by
the inputs we consider are taken to exist). -/

/-- `SurfaceAtlas` record (`models.py`). -/
structure SurfaceAtlas where
  name : String
  description : String
  file_path : String
  space : String
  density : String
  hemisphere : String
  resource_type : String
deriving DecidableEq, Repr, Inhabited

/-- `SurfaceTransform` record (`models.py`); `weight` defaults to `1.0`. -/
structure SurfaceTransform where
  name : String
  description : String
  file_path : String
  source_space : String
  target_space : String
  density : String
  hemisphere : String
  resource_type : String
  weight : Rat := 1
deriving DecidableEq, Repr, Inhabited

/-- `VolumeAtlas` record (`models.py`). -/
structure VolumeAtlas where
  name : String
  description : String
  file_path : String
  space : String
  resolution : String
  resource_type : String
deriving DecidableEq, Repr, Inhabited

/-- `VolumeTransform` record (`models.py`). -/
structure VolumeTransform where
  name : String
  description : String
  file_path : String
  source_space : String
  target_space : String
  resolution : String
  resource_type : String
  weight : Rat := 1
deriving DecidableEq, Repr, Inhabited

/-- `Edge` record (`models.py`): bundles the transforms stored on one keyed
multigraph edge. -/
structure Edge where
  surface_transforms : List SurfaceTransform := []
  volume_transforms : List VolumeTransform := []
deriving DecidableEq, Repr, Inhabited

/-- `Node` record (`models.py`). -/
structure Node where
  name : String
  species : String
  description : String
  surfaces : List SurfaceAtlas := []
  volumes : List VolumeAtlas := []
deriving DecidableEq, Repr, Inhabited

/-! ### Python dict as an ordered association list -/

/-- Insert-or-overwrite with CPython dict semantics: an existing key keeps its
position, a fresh key is appended.  (The lists built by the program always
have pairwise-distinct keys, so overwriting the first occurrence is
overwriting the only occurrence.) -/
def dictInsert {K V : Type} [DecidableEq K] : List (K × V) → K → V → List (K × V)
  | [], k, v => [(k, v)]
  | p :: d, k, v => if p.1 == k then (k, v) :: d else p :: dictInsert d k v

/-- `dict.get`: the value stored at `k`, if any. -/
def dictGet? {K V : Type} [DecidableEq K] : List (K × V) → K → Option V
  | [], _ => none
  | p :: d, k => if p.1 == k then some p.2 else dictGet? d k

/-! ### GraphCache (`methods/cache.py`) -/

abbrev SurfaceAtlasKey := String × String × String × String

abbrev SurfaceTransformKey := String × String × String × String × String

abbrev VolumeAtlasKey := String × String × String

abbrev VolumeTransformKey := String × String × String × String

/-- Key of a surface atlas: `(space, density, hemisphere.lower(), resource_type)`. -/
def surfaceAtlasKeyOf (a : SurfaceAtlas) : SurfaceAtlasKey :=
  (a.space, a.density, pyLower a.hemisphere, a.resource_type)

/-- Key of a surface transform:
`(source, target, density, hemisphere.lower(), resource_type)`. -/
def surfaceTransformKeyOf (t : SurfaceTransform) : SurfaceTransformKey :=
  (t.source_space, t.target_space, t.density, pyLower t.hemisphere, t.resource_type)

/-- Key of a volume atlas: `(space, resolution, resource_type)`. -/
def volumeAtlasKeyOf (a : VolumeAtlas) : VolumeAtlasKey :=
  (a.space, a.resolution, a.resource_type)

/-- Key of a volume transform: `(source, target, resolution, resource_type)`. -/
def volumeTransformKeyOf (t : VolumeTransform) : VolumeTransformKey :=
  (t.source_space, t.target_space, t.resolution, t.resource_type)

/-- `GraphCache`: the four keyed resource tables. -/
structure GraphCache where
  surface_atlas : List (SurfaceAtlasKey × SurfaceAtlas) := []
  surface_transform : List (SurfaceTransformKey × SurfaceTransform) := []
  volume_atlas : List (VolumeAtlasKey × VolumeAtlas) := []
  volume_transform : List (VolumeTransformKey × VolumeTransform) := []
deriving DecidableEq, Repr, Inhabited

/-- `GraphCache.add_surface_atlas`. -/
def GraphCache.add_surface_atlas (c : GraphCache) (a : SurfaceAtlas) : GraphCache :=
  { c with surface_atlas := dictInsert c.surface_atlas (surfaceAtlasKeyOf a) a }

/-- `GraphCache.get_surface_atlas`. -/
def GraphCache.get_surface_atlas (c : GraphCache)
    (space density hemisphere resource_type : String) : Option SurfaceAtlas :=
  dictGet? c.surface_atlas (space, density, pyLower hemisphere, resource_type)

/-- `GraphCache.add_surface_transform`. -/
def GraphCache.add_surface_transform (c : GraphCache) (t : SurfaceTransform) :
    GraphCache :=
  { c with surface_transform := dictInsert c.surface_transform (surfaceTransformKeyOf t) t }

/-- `GraphCache.get_surface_transform`. -/
def GraphCache.get_surface_transform (c : GraphCache)
    (source target density hemisphere resource_type : String) :
    Option SurfaceTransform :=
  dictGet? c.surface_transform (source, target, density, pyLower hemisphere, resource_type)

/-- `GraphCache.add_volume_atlas`. -/
def GraphCache.add_volume_atlas (c : GraphCache) (a : VolumeAtlas) : GraphCache :=
  { c with volume_atlas := dictInsert c.volume_atlas (volumeAtlasKeyOf a) a }

/-- `GraphCache.get_volume_atlas`. -/
def GraphCache.get_volume_atlas (c : GraphCache)
    (space resolution resource_type : String) : Option VolumeAtlas :=
  dictGet? c.volume_atlas (space, resolution, resource_type)

/-- `GraphCache.add_volume_transform`. -/
def GraphCache.add_volume_transform (c : GraphCache) (t : VolumeTransform) :
    GraphCache :=
  { c with volume_transform := dictInsert c.volume_transform (volumeTransformKeyOf t) t }

/-- `GraphCache.get_volume_transform`. -/
def GraphCache.get_volume_transform (c : GraphCache)
    (source target resolution resource_type : String) : Option VolumeTransform :=
  dictGet? c.volume_transform (source, target, resolution, resource_type)

/-- `GraphCache.add_surface_atlases` (bulk insert loop). -/
def GraphCache.add_surface_atlases (c : GraphCache) (atlases : List SurfaceAtlas) :
    GraphCache :=
  atlases.foldl GraphCache.add_surface_atlas c

/-- `GraphCache.add_surface_transforms` (bulk insert loop). -/
def GraphCache.add_surface_transforms (c : GraphCache)
    (transforms : List SurfaceTransform) : GraphCache :=
  transforms.foldl GraphCache.add_surface_transform c

/-- `GraphCache.add_volume_atlases` (bulk insert loop). -/
def GraphCache.add_volume_atlases (c : GraphCache) (atlases : List VolumeAtlas) :
    GraphCache :=
  atlases.foldl GraphCache.add_volume_atlas c

/-- `GraphCache.add_volume_transforms` (bulk insert loop). -/
def GraphCache.add_volume_transforms (c : GraphCache)
    (transforms : List VolumeTransform) : GraphCache :=
  transforms.foldl GraphCache.add_volume_transform c

/-! ### GraphFetchers (`methods/fetchers.py`)

The point-lookup fetchers delegate to the cache getters; the bulk fetchers
filter the cache items on the key components, with `None`-filters matching
everything. -/

/-- `GraphFetchers.fetch_surface_atlas`. -/
def fetch_surface_atlas (c : GraphCache)
    (space density hemisphere resource_type : String) : Option SurfaceAtlas :=
  c.get_surface_atlas space density hemisphere resource_type

/-- `GraphFetchers.fetch_surface_atlases`: all atlases of `space`, with
optional density/hemisphere/resource-type filters on the key fields. -/
def fetch_surface_atlases (c : GraphCache) (space : String)
    (density hemisphere resource_type : Option String) : List SurfaceAtlas :=
  (c.surface_atlas.filter (fun p =>
    p.1.1 == space &&
    (match density with
     | none => true
     | some d => p.1.2.1 == d) &&
    (match hemisphere with
     | none => true
     | some h => p.1.2.2.1 == pyLower h) &&
    (match resource_type with
     | none => true
     | some r => p.1.2.2.2 == r))).map Prod.snd

/-- `GraphFetchers.fetch_surface_transform`. -/
def fetch_surface_transform (c : GraphCache)
    (source target density hemisphere resource_type : String) :
    Option SurfaceTransform :=
  c.get_surface_transform source target density hemisphere resource_type

/-- `GraphFetchers.fetch_surface_transforms`: all transforms from `source` to
`target`, with optional filters on the key fields. -/
def fetch_surface_transforms (c : GraphCache) (source target : String)
    (density hemisphere resource_type : Option String) : List SurfaceTransform :=
  (c.surface_transform.filter (fun p =>
    p.1.1 == source &&
    p.1.2.1 == target &&
    (match density with
     | none => true
     | some d => p.1.2.2.1 == d) &&
    (match hemisphere with
     | none => true
     | some h => p.1.2.2.2.1 == pyLower h) &&
    (match resource_type with
     | none => true
     | some r => p.1.2.2.2.2 == r))).map Prod.snd

/-! ### Errors

Each constructor stands for one typed raise site of the Python code; the
constructor arguments carry the data interpolated into the exception message.
`nodeNotFound` and `networkxNoPath` model the networkx exceptions
`NodeNotFound` and `NetworkXNoPath`; everything else is a `ValueError`
(`invalidHemisphere` stands for the pydantic `ValidationError` on the
`hemisphere` literal field, `indexError` for Python `IndexError`). -/

inductive PyErr where
  | sameSpace (source : String)
  | noValidSurfacePath (source target : String)
  | noSurfaceTransform (source target : String)
  | noSphereAtlas (space density : String)
  | noCommonDensity (mid target : String)
  | nodeNotFound (source target : String)
  | networkxNoPath (source target : String)
  | intParseError (text : String)
  | maxOfEmptySeq
  | indexError
  | invalidHemisphere (context : String)
deriving DecidableEq, Repr

/-! ### The multigraph (`networkx.MultiDiGraph` as used by the program)

Edges are keyed by `(u, v, key)`; between one ordered pair and one key there
is at most one edge, and `add_edge` with an existing `(u, v, key)` overwrites
its attributes — which is exactly `dictInsert` on the triple. Node attribute
dictionaries hold the `Node` record under `data` (absent for nodes created
implicitly by `add_edge`). -/

abbrev EdgeKey := String × String × String

/-- The `data=`/`weight=` attributes the program stores on every edge. -/
structure EdgeAttrs where
  data : Edge
  weight : Rat
deriving DecidableEq, Repr, Inhabited

structure MultiDiGraph where
  nodes : List String := []
  node_data : List (String × Node) := []
  edges : List (EdgeKey × EdgeAttrs) := []
deriving DecidableEq, Repr, Inhabited

/-- Add a node name without attributes (as `add_edge` does for fresh endpoints). -/
def MultiDiGraph.ensure_node (g : MultiDiGraph) (n : String) : MultiDiGraph :=
  if g.nodes.contains n then g else { g with nodes := g.nodes ++ [n] }

/-- `graph.add_node(name, data=node)`. -/
def MultiDiGraph.add_node (g : MultiDiGraph) (n : String) (d : Node) : MultiDiGraph :=
  let g1 := g.ensure_node n
  { g1 with node_data := dictInsert g1.node_data n d }

/-- `graph.add_edge(u, v, key=key, data=data, weight=weight)`. -/
def MultiDiGraph.add_edge (g : MultiDiGraph) (u v key : String) (d : Edge)
    (w : Rat) : MultiDiGraph :=
  let g1 := (g.ensure_node u).ensure_node v
  { g1 with edges := dictInsert g1.edges (u, v, key) ⟨d, w⟩ }

/-! ### Process state

The mutable state a `NeuromapsGraph` instance carries at runtime: the
multigraph, the shared `GraphCache`, and the module-level
`functools.lru_cache` sitting on `_cached_subgraph` (`utils.py`).  That
`lru_cache` keys on the pair (graph object, edge type); `nx.MultiDiGraph`
hashes and compares by object identity and the graph object of an instance
never changes, so for a single instance the cache is keyed by the edge-type
string alone and is never invalidated by mutation.  `path_queries` is pure
instrumentation: a log of `find_path` invocations, appended on every call and
read by nothing, so that theorems can express that an operation performed no
path-finding. -/

structure GraphState where
  graph : MultiDiGraph := {}
  cache : GraphCache := {}
  subgraph_cache : List (String × MultiDiGraph) := []
  path_queries : List (String × String × Option String) := []
deriving DecidableEq, Repr, Inhabited

def empty_state : GraphState := {}

/-- Body of `_cached_subgraph`: all nodes, only the edges keyed `edge_type`. -/
def filter_subgraph (g : MultiDiGraph) (edge_type : String) : MultiDiGraph :=
  { nodes := g.nodes
    node_data := g.node_data
    edges := g.edges.filter (fun e => e.1.2.2 == edge_type) }

/-- `GraphUtils.get_subgraph` = `_cached_subgraph` with its `lru_cache`:
return the memoized subgraph when present, otherwise build it from the
current graph and memoize it. -/
def get_subgraph (st : GraphState) (edge_type : String) :
    MultiDiGraph × GraphState :=
  match dictGet? st.subgraph_cache edge_type with
  | some g => (g, st)
  | none =>
    let g := filter_subgraph st.graph edge_type
    (g, { st with subgraph_cache := st.subgraph_cache ++ [(edge_type, g)] })

/-! ### Shortest path (`nx.shortest_path(..., weight="weight")`)

networkx runs bidirectional Dijkstra: it raises `NodeNotFound` when either
endpoint is missing from the searched graph, returns `[source]` when
source = target, raises `NetworkXNoPath` when the target is unreachable, and
otherwise returns a weight-minimal simple path, where the weight of a hop in
a multigraph is the minimum `weight` attribute over the parallel edges.  The
embedding computes the same outcome by enumerating all simple paths (the
graphs involved are finite) and taking a weight-minimal one; which minimal
path is returned when several tie is not pinned down (networkx leaves that to
heap order), and no theorem below depends on tie-breaking. -/

/-- Successor set of `u` (deduplicated adjacency). -/
def successors (g : MultiDiGraph) (u : String) : List String :=
  (g.edges.filterMap (fun e => if e.1.1 == u then some e.1.2.1 else none)).dedup

/-- Hop cost: minimum weight over the parallel edges from `u` to `v`
(`1` when there is none; unreachable for enumerated hops). -/
def hop_weight (g : MultiDiGraph) (u v : String) : Rat :=
  match g.edges.filterMap
      (fun e => if e.1.1 == u && e.1.2.1 == v then some e.2.weight else none) with
  | [] => 1
  | w :: ws => ws.foldl (fun a b => if b < a then b else a) w

/-- Total weight of a node sequence. -/
def path_weight (g : MultiDiGraph) : List String → Rat
  | u :: v :: rest => hop_weight g u v + path_weight g (v :: rest)
  | _ => 0

/-- Fuelled depth-first enumeration of the simple paths from `u` to `t` that
avoid `visited`. -/
def extend_paths (g : MultiDiGraph) : Nat → List String → String → String →
    List (List String)
  | 0, _, _, _ => []
  | Nat.succ fuel, visited, u, t =>
    if u == t then [[u]]
    else
      ((successors g u).filter (fun v => !((u :: visited).contains v))).flatMap
        (fun v => (extend_paths g fuel (u :: visited) v t).map (fun p => u :: p))

/-- All simple paths from `s` to `t`; fuel `|nodes| + 1` suffices since a
simple path visits each node at most once. -/
def simple_paths (g : MultiDiGraph) (s t : String) : List (List String) :=
  extend_paths g (g.nodes.length + 1) [] s t

/-- First weight-minimal element. -/
def min_weight_path (g : MultiDiGraph) : List (List String) → Option (List String)
  | [] => none
  | p :: ps =>
    some (ps.foldl (fun best q => if path_weight g q < path_weight g best then q else best) p)

/-- Outcome of `nx.shortest_path(g, source, target, weight="weight")`. -/
def shortest_path (g : MultiDiGraph) (source target : String) :
    Except PyErr (List String) :=
  if !(g.nodes.contains source) || !(g.nodes.contains target) then
    .error (.nodeNotFound source target)
  else if source == target then .ok [source]
  else
    match min_weight_path g (simple_paths g source target) with
    | some p => .ok p
    | none => .error (.networkxNoPath source target)

/-- The graph `find_path` searches: the full graph when `edge_type` is falsy
(`None` or the empty string), the memoized class subgraph otherwise. -/
def search_target_graph (st : GraphState) (edge_type : Option String) :
    MultiDiGraph × GraphState :=
  match edge_type with
  | some et => if et == empty_str then (st.graph, st) else get_subgraph st et
  | none => (st.graph, st)

/-- `GraphUtils.find_path`: shortest weighted path, catching only
`NetworkXNoPath` (mapped to `[]`); `NodeNotFound` propagates. -/
def find_path (st : GraphState) (source target : String)
    (edge_type : Option String) : Except PyErr (List String) × GraphState :=
  let gst := search_target_graph st edge_type
  let st1 := { gst.2 with
    path_queries := gst.2.path_queries ++ [(source, target, edge_type)] }
  match shortest_path gst.1 source target with
  | .ok p => (.ok p, st1)
  | .error (.networkxNoPath _ _) => (.ok [], st1)
  | .error e => (.error e, st1)

/-! ### `NeuromapsGraph.add_transform` (`core.py`) -/

inductive AnyTransform where
  | surface (t : SurfaceTransform)
  | volume (t : VolumeTransform)
deriving DecidableEq, Repr

/-- `add_transform`: register a transform both as a cache entry and as a graph
edge under `key`, with the transform itself wrapped in a fresh `Edge` record
and the edge weight set to the transform weight. -/
def add_transform (st : GraphState) (t : AnyTransform) (key : String) : GraphState :=
  match t with
  | .surface s =>
    { st with
      cache := st.cache.add_surface_transform s
      graph := st.graph.add_edge s.source_space s.target_space key
        { surface_transforms := [s], volume_transforms := [] } s.weight }
  | .volume v =>
    { st with
      cache := st.cache.add_volume_transform v
      graph := st.graph.add_edge v.source_space v.target_space key
        { surface_transforms := [], volume_transforms := [v] } v.weight }

/-! ### Density helpers (`transforms/utils.py`, `graph/utils.py`) -/

/-- `_get_density_key`:
`int(d.rstrip("kK")) if d.lower().endswith("k") else int(d)`.
`none` models the `ValueError` that `int` raises on a non-numeric string. -/
def _get_density_key (d : String) : Option Int :=
  if pyEndsWith (pyLower d) ("k") then
    pyInt? (pyDropRightWhile d (fun c => c == 'k' || c == 'K'))
  else
    pyInt? d

/-- Loop of Python `max(iterable, key=...)` once the first element has been
consumed: keeps the first element whose key is maximal. -/
def pyMaxGo (key : String → Option Int) (best : String) (bkey : Int) :
    List String → Except PyErr String
  | [] => .ok best
  | x :: xs =>
    match key x with
    | none => .error (.intParseError x)
    | some kx => if bkey < kx then pyMaxGo key x kx xs else pyMaxGo key best bkey xs

/-- Python `max(iterable, key=...)`; raises on an empty iterable or when the
key function raises on some element. -/
def pyMax (key : String → Option Int) : List String → Except PyErr String
  | [] => .error .maxOfEmptySeq
  | x :: xs =>
    match key x with
    | none => .error (.intParseError x)
    | some kx => pyMaxGo key x kx xs

/-- The intersection `atlas_densities & transform_densities` computed by
`GraphUtils.find_common_density` (as a deduplicated list; Python set
iteration order is unspecified, so no theorem depends on the order). -/
def common_densities (c : GraphCache) (mid_space target_space : String) :
    List String :=
  let atlas_densities :=
    ((fetch_surface_atlases c mid_space none none none).map SurfaceAtlas.density).dedup
  let transform_densities :=
    ((fetch_surface_transforms c mid_space target_space none none none).map
      SurfaceTransform.density).dedup
  atlas_densities.filter (fun d => transform_densities.contains d)

/-- `GraphUtils.find_common_density`: highest common density between the mid
space atlases and the mid-to-target transforms; `ValueError` when the
intersection is empty. -/
def find_common_density (c : GraphCache) (mid_space target_space : String) :
    Except PyErr String :=
  let common := common_densities c mid_space target_space
  if common.isEmpty then .error (.noCommonDensity mid_space target_space)
  else pyMax _get_density_key common

/-! ### Surface transform composition (`graph/transforms/surface.py`) -/

/-- The external `surface_sphere_project_unproject` collaborator: takes the
`sphere_in`, `sphere_project_to`, `sphere_unproject_from` artifact paths and
the requested `sphere_out` path, and either fails (missing artifact, tool
failure) or returns the produced output path. -/
abbrev ExtOp := String → String → String → String → Except PyErr String

/-- `str.split` on the forward slash (structural implementation of
`splitOn "/"`). -/
def splitOnSlash : List Char → List (List Char)
  | [] => [[]]
  | c :: rest =>
    match splitOnSlash rest with
    | [] => [[]]
    | g :: gs => if c == Char.ofNat 47 then [] :: g :: gs else (c :: g) :: gs

/-- `Path(s).parent` for the forward-slash paths the program builds. -/
def path_parent (s : String) : String :=
  let parts := (splitOnSlash s.data).map String.mk
  if parts.length ≤ 1 then dot_str
  else String.intercalate slash_str parts.dropLast

/-- `str(parent / child)` for the same path shapes. -/
def py_path_join (parent child : String) : String :=
  if parent == dot_str then child else parent ++ slash_str ++ child

/-- `hemisphere[0].upper()` (empty result for the empty string, which Python
would reject with `IndexError`; all call sites pass a nonempty hemisphere). -/
def first_char_upper (s : String) : String :=
  match s.data with
  | [] => empty_str
  | c :: _ => String.mk [c.toUpper]

/-- `SurfaceTransformOps._hop_output_path`: deterministic intermediate file
path for one hop. -/
def hop_output_path (output_file_path source next_target density hemisphere : String) :
    String :=
  py_path_join (path_parent output_file_path)
    ("src-" ++ source ++ "_to-" ++ next_target ++ "_den-" ++ density ++
      "_hemi-" ++ first_char_upper hemisphere ++ "_sphere.surf.gii")

/-- `SurfaceTransformOps._two_hops`: compose two sphere transforms through
`mid_space` by project-unproject.  Pure except for the external operation:
it performs cache reads only and returns the composed output path. -/
def two_hops (ext : ExtOp) (c : GraphCache)
    (source_space mid_space target_space density hemisphere output_file_path : String)
    (first_transform : Option SurfaceTransform) : Except PyErr String :=
  let ft := match first_transform with
    | some t => some t
    | none => fetch_surface_transform c source_space mid_space density hemisphere sphere_str
  match ft with
  | none => .error (.noSurfaceTransform source_space mid_space)
  | some t =>
    let sphere_in := t.file_path
    match find_common_density c mid_space target_space with
    | .error e => .error e
    | .ok common_density =>
      match fetch_surface_atlas c mid_space common_density hemisphere sphere_str with
      | none => .error (.noSphereAtlas mid_space common_density)
      | some mid_atlas =>
        match fetch_surface_transform c mid_space target_space common_density
            hemisphere sphere_str with
        | none => .error (.noSurfaceTransform mid_space target_space)
        | some unproject_transform =>
          ext sphere_in mid_atlas.file_path unproject_transform.file_path
            output_file_path

/-- `SurfaceTransformOps._compose_next_hop`: extend the accumulated transform
by one hop, build the derived `SurfaceTransform` with `weight = hop_idx`, and
— when `add_edge` — register it in the cache (note: only
`cache.add_surface_transform` is called; no graph edge is added). -/
def compose_next_hop (ext : ExtOp) (st : GraphState) (path : List String)
    (hop_idx : Nat) (next_space : String) (current_transform : SurfaceTransform)
    (source density hemisphere output_file_path : String) (add_edge : Bool) :
    Except PyErr SurfaceTransform × GraphState :=
  let hop_output := hop_output_path output_file_path source next_space density hemisphere
  match two_hops ext st.cache (path.getD (hop_idx - 2) empty_str)
      (path.getD (hop_idx - 1) empty_str) next_space density hemisphere hop_output
      (some current_transform) with
  | .error e => (.error e, st)
  | .ok composed_path =>
    let new_transform : SurfaceTransform :=
      { name := source ++ "_to_" ++ next_space ++ "_" ++ density ++ "_" ++
          hemisphere ++ "_sphere"
        -- Python wraps the two space names in single quotes inside the
        -- description; the quotes are omitted here.
        description := "Surface transform from " ++ source ++ " to " ++ next_space
        source_space := source
        target_space := next_space
        density := density
        hemisphere := hemisphere
        resource_type := sphere_str
        file_path := composed_path
        weight := (hop_idx : Rat) }
    if add_edge then
      (.ok new_transform, { st with cache := st.cache.add_surface_transform new_transform })
    else
      (.ok new_transform, st)

/-- The `for hop_idx, next_space in enumerate(path[2:], start=2)` loop of
`SurfaceTransformOps._compose_multihop`. -/
def compose_hops (ext : ExtOp) (st : GraphState) (path : List String)
    (hop_idx : Nat) (rest : List String) (current_transform : SurfaceTransform)
    (source density hemisphere output_file_path : String) (add_edge : Bool) :
    Except PyErr SurfaceTransform × GraphState :=
  match rest with
  | [] => (.ok current_transform, st)
  | next_space :: rest1 =>
    match compose_next_hop ext st path hop_idx next_space current_transform
        source density hemisphere output_file_path add_edge with
    | (.error e, st1) => (.error e, st1)
    | (.ok t, st1) =>
      compose_hops ext st1 path (hop_idx + 1) rest1 t source density hemisphere
        output_file_path add_edge

/-- `SurfaceTransformOps._compose_multihop`.  Callers guarantee
`len(path) >= 3`; the wildcard branch models the `IndexError` Python would
raise on a shorter list. -/
def compose_multihop (ext : ExtOp) (st : GraphState) (path : List String)
    (density hemisphere output_file_path : String) (add_edge : Bool) :
    Except PyErr SurfaceTransform × GraphState :=
  match path with
  | p0 :: p1 :: rest =>
    match fetch_surface_transform st.cache p0 p1 density hemisphere sphere_str with
    | none => (.error (.noSurfaceTransform p0 p1), st)
    | some t0 =>
      compose_hops ext st (p0 :: p1 :: rest) 2 rest t0 p0 density hemisphere
        output_file_path add_edge
  | _ => (.error .indexError, st)

/-- `SurfaceTransformOps._resolve_sphere_transform`: same-space check, path
finding restricted to `surface_to_surface`, then the direct-edge cache lookup
(whose `None` propagates as a successful `none`) or multi-hop composition. -/
def resolve_sphere_transform (ext : ExtOp) (st : GraphState)
    (source target density hemisphere output_file_path : String) (add_edge : Bool) :
    Except PyErr (Option SurfaceTransform) × GraphState :=
  if source == target then (.error (.sameSpace source), st)
  else
    match find_path st source target (some surface_to_surface_key) with
    | (.error e, st1) => (.error e, st1)
    | (.ok path, st1) =>
      if path.length < 2 then (.error (.noValidSurfacePath source target), st1)
      else if path.length == 2 then
        (.ok (fetch_surface_transform st1.cache source target density hemisphere
          sphere_str), st1)
      else
        match compose_multihop ext st1 path density hemisphere output_file_path
            add_edge with
        | (.ok t, st2) => (.ok (some t), st2)
        | (.error e, st2) => (.error e, st2)

/-! ### GraphBuilder (`builder.py`)

The YAML has already been parsed into nested records; the nested dictionaries
become ordered association lists (density -> type -> hemisphere -> path for
surfaces, resolution -> type -> path for volumes).  pydantic rejects a
hemisphere outside {left, right} while the comprehension builds the record
list, before any insertion for that entry happens; the eager file-existence
validation is a filesystem concern outside this model (all paths are taken to
exist). -/

abbrev SurfacesDef := List (String × List (String × List (String × String)))

abbrev VolumesDef := List (String × List (String × String))

structure NodeDef where
  name : String
  species : String
  description : String
  surfaces : SurfacesDef := []
  volumes : VolumesDef := []
deriving DecidableEq, Repr, Inhabited

structure SurfaceEdgeDef where
  from_ : String
  to_ : String
  surfaces : SurfacesDef := []
deriving DecidableEq, Repr, Inhabited

structure VolumeEdgeDef where
  from_ : String
  to_ : String
  volumes : VolumesDef := []
deriving DecidableEq, Repr, Inhabited

structure GraphDef where
  nodes : List NodeDef := []
  surface_to_surface : List SurfaceEdgeDef := []
  volume_to_volume : List VolumeEdgeDef := []
deriving DecidableEq, Repr, Inhabited

/-- `GraphBuilder._resolve_path`: prepend `data_dir` when configured. -/
def resolve_path (data_dir : Option String) (p : String) : String :=
  match data_dir with
  | some d => d ++ slash_str ++ p
  | none => p

/-- All hemisphere keys of a surfaces definition are valid pydantic literals. -/
def hemis_valid (sd : SurfacesDef) : Bool :=
  sd.all (fun dt => dt.2.all (fun th => th.2.all
    (fun hp => hp.1 == left_str || hp.1 == right_str)))

/-- `GraphBuilder._parse_surfaces`. -/
def parse_surfaces (data_dir : Option String) (node_name description : String)
    (sd : SurfacesDef) : List SurfaceAtlas :=
  sd.flatMap (fun dt => dt.2.flatMap (fun th => th.2.map (fun hp =>
    { name := node_name ++ "_" ++ dt.1 ++ "_" ++ hp.1 ++ "_" ++ th.1
      description := description
      file_path := resolve_path data_dir hp.2
      space := node_name
      density := dt.1
      hemisphere := hp.1
      resource_type := th.1 })))

/-- `GraphBuilder._parse_volumes`. -/
def parse_volumes (data_dir : Option String) (node_name description : String)
    (vd : VolumesDef) : List VolumeAtlas :=
  vd.flatMap (fun rt => rt.2.map (fun tp =>
    { name := node_name ++ "_" ++ rt.1 ++ "_" ++ tp.1
      description := description
      file_path := resolve_path data_dir tp.2
      space := node_name
      resolution := rt.1
      resource_type := tp.1 }))

/-- `GraphBuilder._parse_surface_to_surface_transforms`. -/
def parse_surface_transforms (data_dir : Option String)
    (source_name target_name : String) (sd : SurfacesDef) : List SurfaceTransform :=
  sd.flatMap (fun dt => dt.2.flatMap (fun th => th.2.map (fun hp =>
    { name := source_name ++ "_to_" ++ target_name ++ "_" ++ dt.1 ++ "_" ++
        hp.1 ++ "_" ++ th.1
      description := "surf2surf transform from " ++ source_name ++ " to " ++ target_name
      file_path := resolve_path data_dir hp.2
      source_space := source_name
      target_space := target_name
      density := dt.1
      hemisphere := hp.1
      resource_type := th.1 })))

/-- `GraphBuilder._parse_volume_to_volume_transforms`. -/
def parse_volume_transforms (data_dir : Option String)
    (source_name target_name : String) (vd : VolumesDef) : List VolumeTransform :=
  vd.flatMap (fun rt => rt.2.map (fun tp =>
    { name := source_name ++ "_to_" ++ target_name ++ "_" ++ rt.1 ++ "_" ++ tp.1
      description := "vol2vol transform from " ++ source_name ++ " to " ++ target_name
      file_path := resolve_path data_dir tp.2
      source_space := source_name
      target_space := target_name
      resolution := rt.1
      resource_type := tp.1 }))

/-- One iteration of `GraphBuilder._build_nodes`. -/
def build_node (data_dir : Option String) (st : GraphState) (nd : NodeDef) :
    Except PyErr Unit × GraphState :=
  if !(hemis_valid nd.surfaces) then (.error (.invalidHemisphere nd.name), st)
  else
    let surfaces := parse_surfaces data_dir nd.name nd.description nd.surfaces
    let volumes := parse_volumes data_dir nd.name nd.description nd.volumes
    let node : Node :=
      { name := nd.name, species := nd.species, description := nd.description
        surfaces := surfaces, volumes := volumes }
    let g := st.graph.add_node nd.name node
    let c := (st.cache.add_surface_atlases surfaces).add_volume_atlases volumes
    (.ok (), { st with graph := g, cache := c })

/-- `GraphBuilder._build_nodes`. -/
def build_nodes (data_dir : Option String) (st : GraphState) :
    List NodeDef → Except PyErr Unit × GraphState
  | [] => (.ok (), st)
  | nd :: rest =>
    match build_node data_dir st nd with
    | (.ok _, st1) => build_nodes data_dir st1 rest
    | (.error e, st1) => (.error e, st1)

/-- `GraphBuilder._build_surface_edge`. -/
def build_surface_edge (data_dir : Option String) (st : GraphState)
    (ed : SurfaceEdgeDef) : Except PyErr Unit × GraphState :=
  if !(hemis_valid ed.surfaces) then (.error (.invalidHemisphere ed.from_), st)
  else
    let transforms := parse_surface_transforms data_dir ed.from_ ed.to_ ed.surfaces
    let e : Edge := { surface_transforms := transforms, volume_transforms := [] }
    let g := st.graph.add_edge ed.from_ ed.to_ surface_to_surface_key e 1
    (.ok (), { st with graph := g, cache := st.cache.add_surface_transforms transforms })

/-- `GraphBuilder._build_volume_edge`. -/
def build_volume_edge (data_dir : Option String) (st : GraphState)
    (ed : VolumeEdgeDef) : Except PyErr Unit × GraphState :=
  let transforms := parse_volume_transforms data_dir ed.from_ ed.to_ ed.volumes
  let e : Edge := { surface_transforms := [], volume_transforms := transforms }
  let g := st.graph.add_edge ed.from_ ed.to_ volume_to_volume_key e 1
  (.ok (), { st with graph := g, cache := st.cache.add_volume_transforms transforms })

/-- Loop over the surface edge definitions. -/
def build_surface_edges (data_dir : Option String) (st : GraphState) :
    List SurfaceEdgeDef → Except PyErr Unit × GraphState
  | [] => (.ok (), st)
  | ed :: rest =>
    match build_surface_edge data_dir st ed with
    | (.ok _, st1) => build_surface_edges data_dir st1 rest
    | (.error e, st1) => (.error e, st1)

/-- Loop over the volume edge definitions. -/
def build_volume_edges (data_dir : Option String) (st : GraphState) :
    List VolumeEdgeDef → Except PyErr Unit × GraphState
  | [] => (.ok (), st)
  | ed :: rest =>
    match build_volume_edge data_dir st ed with
    | (.ok _, st1) => build_volume_edges data_dir st1 rest
    | (.error e, st1) => (.error e, st1)

/-- `GraphBuilder.build_from_dict`: nodes, then surface edges, then volume
edges. -/
def build_from_dict (data_dir : Option String) (st : GraphState)
    (data : GraphDef) : Except PyErr Unit × GraphState :=
  match build_nodes data_dir st data.nodes with
  | (.error e, st1) => (.error e, st1)
  | (.ok _, st1) =>
    match build_surface_edges data_dir st1 data.surface_to_surface with
    | (.error e, st2) => (.error e, st2)
    | (.ok _, st2) => build_volume_edges data_dir st2 data.volume_to_volume

/-- The surface atlases a build inserts, in insertion order. -/
def all_surface_atlases (data_dir : Option String) (data : GraphDef) :
    List SurfaceAtlas :=
  data.nodes.flatMap (fun nd => parse_surfaces data_dir nd.name nd.description nd.surfaces)

/-- The volume atlases a build inserts, in insertion order. -/
def all_volume_atlases (data_dir : Option String) (data : GraphDef) :
    List VolumeAtlas :=
  data.nodes.flatMap (fun nd => parse_volumes data_dir nd.name nd.description nd.volumes)

/-- The surface transforms a build inserts, in insertion order. -/
def all_surface_transforms (data_dir : Option String) (data : GraphDef) :
    List SurfaceTransform :=
  data.surface_to_surface.flatMap
    (fun ed => parse_surface_transforms data_dir ed.from_ ed.to_ ed.surfaces)

/-- The volume transforms a build inserts, in insertion order. -/
def all_volume_transforms (data_dir : Option String) (data : GraphDef) :
    List VolumeTransform :=
  data.volume_to_volume.flatMap
    (fun ed => parse_volume_transforms data_dir ed.from_ ed.to_ ed.volumes)

/-! ### Library lemmas about the dict model -/

theorem dictGet?_dictInsert {K V : Type} [DecidableEq K]
    (d : List (K × V)) (k k' : K) (v : V) :
    dictGet? (dictInsert d k v) k' = if k' = k then some v else dictGet? d k' := by
  induction d with
  | nil =>
    by_cases h : k' = k
    · subst h; simp [dictInsert, dictGet?]
    · have h2 : ¬ k = k' := fun hh => h hh.symm
      simp [dictInsert, dictGet?, h, h2]
  | cons p d ih =>
    by_cases hpk : p.1 = k
    · have hb : (p.1 == k) = true := by simp [hpk]
      by_cases h : k' = k
      · subst h; simp [dictInsert, dictGet?, hb]
      · have h2 : ¬ k = k' := fun hh => h hh.symm
        have h3 : ¬ p.1 = k' := by rw [hpk]; exact h2
        simp [dictInsert, dictGet?, hb, h, h2, h3]
    · have hb : (p.1 == k) = false := by simp [hpk]
      by_cases hpk' : p.1 = k'
      · have h : ¬ k' = k := fun hh => hpk (hpk'.trans hh)
        simp [dictInsert, dictGet?, hb, hpk', h]
      · simp [dictInsert, dictGet?, hb, hpk', ih]

theorem dictGet?_dictInsert_self {K V : Type} [DecidableEq K]
    (d : List (K × V)) (k : K) (v : V) :
    dictGet? (dictInsert d k v) k = some v := by
  simp [dictGet?_dictInsert]

theorem dictGet?_dictInsert_isSome {K V : Type} [DecidableEq K]
    (d : List (K × V)) (k k' : K) (v : V)
    (h : (dictGet? d k').isSome) : (dictGet? (dictInsert d k v) k').isSome := by
  rw [dictGet?_dictInsert]
  by_cases hk : k' = k <;> simp [hk, h]

theorem dictGet?_mem {K V : Type} [DecidableEq K]
    {d : List (K × V)} {k : K} {v : V}
    (h : dictGet? d k = some v) : (k, v) ∈ d := by
  induction d with
  | nil => simp [dictGet?] at h
  | cons p d ih =>
    obtain ⟨p1, p2⟩ := p
    by_cases hpk : p1 = k
    · subst hpk
      rw [dictGet?, if_pos (by simp)] at h
      injection h with h2
      subst h2
      exact List.mem_cons_self _ _
    · rw [dictGet?, if_neg (by simp [hpk])] at h
      exact List.mem_cons_of_mem _ (ih h)

/-! ### Paths in the multigraph -/

/-- Consecutive pairs of a node sequence. -/
def consec_pairs : List String → List (String × String)
  | u :: v :: rest => (u, v) :: consec_pairs (v :: rest)
  | _ => []

/-- A directed walk in `g` from `u` to `t` along existing edges (any key). -/
inductive IsPath (g : MultiDiGraph) : String → String → List String → Prop
  | single (u : String) : IsPath g u u [u]
  | cons (u v t : String) (p : List String)
      (he : ∃ e ∈ g.edges, e.1.1 = u ∧ e.1.2.1 = v)
      (hp : IsPath g v t p) : IsPath g u t (u :: p)

theorem mem_successors {g : MultiDiGraph} {u v : String} :
    v ∈ successors g u ↔ ∃ e ∈ g.edges, e.1.1 = u ∧ e.1.2.1 = v := by
  unfold successors
  rw [List.mem_dedup, List.mem_filterMap]
  constructor
  · rintro ⟨e, he, hf⟩
    by_cases h : e.1.1 = u
    · refine ⟨e, he, h, ?_⟩
      rw [if_pos (by simp [h])] at hf
      exact Option.some_injective _ hf
    · rw [if_neg (by simp [h])] at hf
      exact absurd hf (by simp)
  · rintro ⟨e, he, h1, h2⟩
    exact ⟨e, he, by rw [if_pos (by simp [h1]), h2]⟩

theorem extend_paths_sound {g : MultiDiGraph} :
    ∀ (fuel : Nat) (visited : List String) (u t : String) (p : List String),
    p ∈ extend_paths g fuel visited u t → IsPath g u t p := by
  intro fuel
  induction fuel with
  | zero => intro visited u t p hp; simp [extend_paths] at hp
  | succ fuel ih =>
    intro visited u t p hp
    by_cases hut : u = t
    · rw [extend_paths, if_pos (by simp [hut])] at hp
      simp at hp
      subst hp
      subst hut
      exact IsPath.single u
    · rw [extend_paths, if_neg (by simp [hut])] at hp
      rw [List.mem_flatMap] at hp
      obtain ⟨v, hv, hpv⟩ := hp
      rw [List.mem_map] at hpv
      obtain ⟨q, hq, hque⟩ := hpv
      subst hque
      have hvs : v ∈ successors g u := (List.mem_filter.mp hv).1
      exact IsPath.cons u v t q (mem_successors.mp hvs) (ih (u :: visited) v t q hq)

theorem IsPath_head {g : MultiDiGraph} {u t : String} {p : List String}
    (h : IsPath g u t p) : ∃ rest, p = u :: rest := by
  cases h with
  | single => exact ⟨[], rfl⟩
  | cons _ _ _ q _ _ => exact ⟨q, rfl⟩

theorem IsPath_consec {g : MultiDiGraph} {u t : String} {p : List String}
    (h : IsPath g u t p) :
    ∀ a b, (a, b) ∈ consec_pairs p → ∃ e ∈ g.edges, e.1.1 = a ∧ e.1.2.1 = b := by
  induction h with
  | single u => intro a b hab; simp [consec_pairs] at hab
  | cons u v t q he hq ih =>
    intro a b hab
    obtain ⟨rest, hrest⟩ := IsPath_head hq
    subst hrest
    rw [consec_pairs] at hab
    rcases List.mem_cons.mp hab with h1 | h2
    · obtain ⟨ha, hb⟩ := Prod.mk.injEq .. ▸ h1
      simp at h1
      obtain ⟨ha, hb⟩ := h1
      subst ha; subst hb
      exact he
    · exact ih a b h2

theorem foldl_min_mem (g : MultiDiGraph) :
    ∀ (ps : List (List String)) (best : List String),
    (ps.foldl (fun best q => if path_weight g q < path_weight g best then q else best) best)
      = best ∨
    (ps.foldl (fun best q => if path_weight g q < path_weight g best then q else best) best)
      ∈ ps := by
  intro ps
  induction ps with
  | nil => intro best; left; rfl
  | cons q ps ih =>
    intro best
    rw [List.foldl_cons]
    rcases ih (if path_weight g q < path_weight g best then q else best) with h | h
    · rw [h]
      by_cases hlt : path_weight g q < path_weight g best
      · right; rw [if_pos hlt]; exact List.mem_cons_self _ _
      · left; rw [if_neg hlt]
    · right; exact List.mem_cons_of_mem _ h

theorem min_weight_path_mem {g : MultiDiGraph} {l : List (List String)}
    {p : List String} (h : min_weight_path g l = some p) : p ∈ l := by
  cases l with
  | nil => simp [min_weight_path] at h
  | cons q ps =>
    rw [min_weight_path] at h
    injection h with h
    subst h
    rcases foldl_min_mem g ps q with h | h
    · rw [h]; exact List.mem_cons_self _ _
    · exact List.mem_cons_of_mem _ h

/-- Soundness of the shortest-path outcome: every consecutive pair of a
returned path is joined by an edge of the searched graph. -/
theorem shortest_path_ok_consec {g : MultiDiGraph} {s t : String} {p : List String}
    (h : shortest_path g s t = .ok p) :
    ∀ a b, (a, b) ∈ consec_pairs p → ∃ e ∈ g.edges, e.1.1 = a ∧ e.1.2.1 = b := by
  unfold shortest_path at h
  by_cases h1 : !(g.nodes.contains s) || !(g.nodes.contains t)
  · rw [if_pos h1] at h; exact absurd h (by simp)
  · rw [if_neg h1] at h
    by_cases h2 : s = t
    · rw [if_pos (by simp [h2])] at h
      injection h with h
      subst h
      intro a b hab
      simp [consec_pairs] at hab
    · rw [if_neg (by simp [h2])] at h
      cases hmin : min_weight_path g (simple_paths g s t) with
      | none => rw [hmin] at h; exact absurd h (by simp)
      | some q =>
        rw [hmin] at h
        injection h with h
        subst h
        have hq := min_weight_path_mem hmin
        exact IsPath_consec (extend_paths_sound _ _ _ _ _ hq)

/-- If no walk joins `s` to `t`, the enumeration is empty. -/
theorem simple_paths_eq_nil {g : MultiDiGraph} {s t : String}
    (h : ¬ ∃ p, IsPath g s t p) : simple_paths g s t = [] := by
  cases hsp : simple_paths g s t with
  | nil => rfl
  | cons p ps =>
    exfalso
    exact h ⟨p, extend_paths_sound _ _ _ _ _ (hsp ▸ List.mem_cons_self p ps)⟩

/-! ### State-shape lemmas for `find_path` -/

theorem search_target_graph_cache (st : GraphState) (et : Option String) :
    (search_target_graph st et).2.cache = st.cache := by
  cases et with
  | none => rfl
  | some e =>
    simp only [search_target_graph]
    by_cases he : e == empty_str
    · rw [if_pos he]
    · rw [if_neg he]
      unfold get_subgraph
      cases dictGet? st.subgraph_cache e <;> rfl

theorem search_target_graph_graph (st : GraphState) (et : Option String) :
    (search_target_graph st et).2.graph = st.graph := by
  cases et with
  | none => rfl
  | some e =>
    simp only [search_target_graph]
    by_cases he : e == empty_str
    · rw [if_pos he]
    · rw [if_neg he]
      unfold get_subgraph
      cases dictGet? st.subgraph_cache e <;> rfl

theorem find_path_cache (st : GraphState) (source target : String)
    (et : Option String) : (find_path st source target et).2.cache = st.cache := by
  unfold find_path
  dsimp only
  split <;> simp [search_target_graph_cache]

theorem find_path_graph (st : GraphState) (source target : String)
    (et : Option String) : (find_path st source target et).2.graph = st.graph := by
  unfold find_path
  dsimp only
  split <;> simp [search_target_graph_graph]

/-- Consistency of the memoized subgraphs with the current graph: every edge
of a cached class subgraph carries the class key it is cached under and its
`(u, v, key)` triple is (still) an edge of the graph.  This holds for every
state the program reaches, because `_cached_subgraph` stores exact filtered
copies and edges are never removed from the graph (only added or
overwritten). -/
def CacheSound (st : GraphState) : Prop :=
  ∀ et g, (et, g) ∈ st.subgraph_cache →
    ∀ e ∈ g.edges, e.1.2.2 = et ∧ ∃ a, ((e.1.1, e.1.2.1, et), a) ∈ st.graph.edges

theorem search_graph_edges_sound (st : GraphState) (et : String)
    (hsound : CacheSound st) :
    ∀ e ∈ (get_subgraph st et).1.edges,
      e.1.2.2 = et ∧ ∃ a, ((e.1.1, e.1.2.1, et), a) ∈ st.graph.edges := by
  intro e he
  unfold get_subgraph at he
  cases hg : dictGet? st.subgraph_cache et with
  | some g =>
    rw [hg] at he
    exact hsound et g (dictGet?_mem hg) e he
  | none =>
    rw [hg] at he
    simp only [filter_subgraph] at he
    have := List.mem_filter.mp he
    refine ⟨by simpa using this.2, e.2, ?_⟩
    have hmem := this.1
    have : e = ((e.1.1, e.1.2.1, e.1.2.2), e.2) := rfl
    rw [this] at hmem
    simpa [show e.1.2.2 = et by simpa using List.mem_filter.mp he |>.2] using hmem

/-! ### Concrete space names and resources used by witnesses -/

def sA : String := "A"

def sB : String := "B"

def sC : String := "C"

def sD : String := "D"

def sX : String := "X"

def sY : String := "Y"

def sZ : String := "Z"

def den32k : String := "32k"

def den41k : String := "41k"

def den10k : String := "10k"

/-! ### C5 — same-space rejection -/

/-- Claim C5: for every space `X`, density and hemisphere,
`_resolve_sphere_transform(X, X, ...)` fails with the same-space `ValueError`
and leaves the state untouched — in particular the `path_queries`
instrumentation log is unchanged, so no path-finding was performed before the
failure, for every starting state and every external operation. -/
theorem c5_same_space_rejection (ext : ExtOp) (st : GraphState)
    (source density hemisphere output_file_path : String) (add_edge : Bool) :
    resolve_sphere_transform ext st source source density hemisphere
      output_file_path add_edge = (.error (.sameSpace source), st) := by
  unfold resolve_sphere_transform
  rw [if_pos (by simp)]

/-! ### C6 — class isolation of `find_path` -/

/-- Claim C6: a path returned by `find_path(A, B, edge_class)` only traverses
pairs joined by an edge stored under that class key in the graph: whenever the
memoized class subgraphs are consistent with the graph (`CacheSound`, which
holds in every reachable state) and the class key is non-empty, every
consecutive pair `(a, b)` of the returned path has an edge `(a, b, edge_class)`
in the graph — so a pair joined only under the other class key is never
traversed. -/
theorem c6_class_isolation (st : GraphState) (source target et : String)
    (p : List String) (st1 : GraphState)
    (hsound : CacheSound st) (hne : et ≠ empty_str)
    (hfp : find_path st source target (some et) = (.ok p, st1)) :
    ∀ a b, (a, b) ∈ consec_pairs p →
      ∃ w, ((a, b, et), w) ∈ st.graph.edges := by
  have hsg : search_target_graph st (some et) = get_subgraph st et := by
    simp only [search_target_graph]
    rw [if_neg (by simp [hne])]
  unfold find_path at hfp
  dsimp only at hfp
  rw [hsg] at hfp
  intro a b hab
  cases hsp : shortest_path (get_subgraph st et).1 source target with
  | ok q =>
    rw [hsp] at hfp
    simp only [Prod.mk.injEq] at hfp
    have hqp : q = p := by
      have := hfp.1
      injection this
    subst hqp
    obtain ⟨e, he, h1, h2⟩ := shortest_path_ok_consec hsp a b hab
    obtain ⟨hkey, w, hw⟩ := search_graph_edges_sound st et hsound e he
    rw [h1, h2] at hw
    exact ⟨w, hw⟩
  | error e =>
    cases e with
    | networkxNoPath u v =>
      rw [hsp] at hfp
      simp only [Prod.mk.injEq] at hfp
      have hp : ([] : List String) = p := by
        have := hfp.1
        injection this
      rw [← hp] at hab
      simp [consec_pairs] at hab
    | nodeNotFound u v =>
      rw [hsp] at hfp
      simp at hfp
    | sameSpace u => rw [hsp] at hfp; simp at hfp
    | noValidSurfacePath u v => rw [hsp] at hfp; simp at hfp
    | noSurfaceTransform u v => rw [hsp] at hfp; simp at hfp
    | noSphereAtlas u v => rw [hsp] at hfp; simp at hfp
    | noCommonDensity u v => rw [hsp] at hfp; simp at hfp
    | intParseError u => rw [hsp] at hfp; simp at hfp
    | maxOfEmptySeq => rw [hsp] at hfp; simp at hfp
    | indexError => rw [hsp] at hfp; simp at hfp
    | invalidHemisphere u => rw [hsp] at hfp; simp at hfp

/-- A two-node graph with a single surface edge, fresh caches. -/
def stW6 : GraphState :=
  { graph :=
      { nodes := [sA, sB]
        node_data := []
        edges := [((sA, sB, surface_to_surface_key), ⟨{}, 1⟩)] }
    cache := {}
    subgraph_cache := []
    path_queries := [] }

/-- Witness for C6 at a concrete state: the edge behind the returned direct
path is a `surface_to_surface` edge of the graph. -/
theorem c6_class_isolation_witness :
    ∃ w, ((sA, sB, surface_to_surface_key), w) ∈ stW6.graph.edges :=
  c6_class_isolation stW6 sA sB surface_to_surface_key [sA, sB]
    (find_path stW6 sA sB (some surface_to_surface_key)).2
    (by intro et g h; simp [stW6] at h)
    (by decide)
    rfl
    sA sB (by simp [consec_pairs])

/-! ### C7 — no-path outcome of `find_path` -/

/-- A walk either starts and ends at the same node or leaves its start along
some edge. -/
theorem IsPath_start {g : MultiDiGraph} {u t : String} {p : List String}
    (h : IsPath g u t p) : u = t ∨ ∃ e ∈ g.edges, e.1.1 = u := by
  cases h with
  | single => left; rfl
  | cons u v t q he hq =>
    right
    obtain ⟨e, he1, he2, _⟩ := he
    exact ⟨e, he1, he2⟩

/-- Claim C7 (amended): when both spaces are nodes of the graph actually
searched — the full graph, or the (possibly previously memoized) class
subgraph — and are distinct and joined by no walk there, `find_path` returns
`[]` and raises nothing.  (The unamended claim, which requires only presence
in the current graph, fails when a space was added after the class subgraph
was first memoized; see the counterexample.) -/
theorem c7_no_path_returns_empty (st : GraphState) (source target : String)
    (et : Option String)
    (hs : (search_target_graph st et).1.nodes.contains source = true)
    (ht : (search_target_graph st et).1.nodes.contains target = true)
    (hne : source ≠ target)
    (hnp : ¬ ∃ p, IsPath (search_target_graph st et).1 source target p) :
    (find_path st source target et).1 = .ok [] := by
  have hsp : shortest_path (search_target_graph st et).1 source target
      = .error (.networkxNoPath source target) := by
    unfold shortest_path
    rw [if_neg (by simp at hs ht; simp [hs, ht])]
    rw [if_neg (by simp [hne])]
    rw [simple_paths_eq_nil hnp]
    rfl
  unfold find_path
  dsimp only
  rw [hsp]

/-- Ten-node-free concrete state for the C7 witness: two isolated nodes next
to one connected pair. -/
def stW7 : GraphState :=
  { graph :=
      { nodes := [sA, sB, sC, sD]
        node_data := []
        edges := [((sA, sB, surface_to_surface_key), ⟨{}, 1⟩)] }
    cache := {}
    subgraph_cache := []
    path_queries := [] }

/-- Witness for C7: on a fresh state, two present-but-unconnected spaces give
`.ok []`. -/
theorem c7_no_path_returns_empty_witness :
    (find_path stW7 sC sD (some surface_to_surface_key)).1 = .ok [] :=
  c7_no_path_returns_empty stW7 sC sD (some surface_to_surface_key)
    (by decide) (by decide) (by decide)
    (by
      rintro ⟨p, hp⟩
      rcases IsPath_start hp with h | ⟨e, he, h1⟩
      · exact absurd h (by decide)
      · have hedges :
            (search_target_graph stW7 (some surface_to_surface_key)).1.edges
              = [((sA, sB, surface_to_surface_key), ⟨{}, 1⟩)] := by rfl
        rw [hedges] at he
        rw [List.mem_singleton] at he
        subst he
        exact absurd h1 (by decide))

/-- The stale-cache state for the C7 counterexample: build a two-node surface
graph, run one class-restricted `find_path` (memoizing the class subgraph),
then register a volume transform between two brand-new spaces via
`add_transform`. -/
def stX7 : GraphState :=
  add_transform
    (find_path
      { graph :=
          { nodes := [sA, sB]
            node_data := []
            edges := [((sA, sB, surface_to_surface_key), ⟨{}, 1⟩)] }
        cache := {}
        subgraph_cache := []
        path_queries := [] }
      sA sB (some surface_to_surface_key)).2
    (.volume
      { name := "vtCD"
        description := "volume transform from C to D"
        file_path := "cd.nii.gz"
        source_space := sC
        target_space := sD
        resolution := "1mm"
        resource_type := "warp"
        weight := 1 })
    volume_to_volume_key

/-- Counterexample to C7 as stated: in `stX7` the spaces `C` and `D` are both
present in the graph, are distinct, and have no connecting walk under the
`surface_to_surface` restriction, yet `find_path` raises `NodeNotFound`
(the class subgraph was memoized before `C` and `D` existed, and only
`NetworkXNoPath` is caught). -/
theorem c7_counterexample :
    stX7.graph.nodes.contains sC = true ∧
    stX7.graph.nodes.contains sD = true ∧
    sC ≠ sD ∧
    (¬ ∃ p, IsPath (filter_subgraph stX7.graph surface_to_surface_key) sC sD p) ∧
    (find_path stX7 sC sD (some surface_to_surface_key)).1
      = .error (.nodeNotFound sC sD) := by
  refine ⟨by decide, by decide, by decide, ?_, by rfl⟩
  rintro ⟨p, hp⟩
  rcases IsPath_start hp with h | ⟨e, he, h1⟩
  · exact absurd h (by decide)
  · have hedges : (filter_subgraph stX7.graph surface_to_surface_key).edges
        = [((sA, sB, surface_to_surface_key), ⟨{}, 1⟩)] := by rfl
    rw [hedges] at he
    rw [List.mem_singleton] at he
    subst he
    exact absurd h1 (by decide)

/-! ### C10 — the memoized class subgraph is never invalidated -/

theorem dictGet?_append_single_isSome {K V : Type} [DecidableEq K]
    (l : List (K × V)) (k : K) (v : V) :
    (dictGet? (l ++ [(k, v)]) k).isSome := by
  induction l with
  | nil => simp [dictGet?]
  | cons p l ih =>
    by_cases hpk : p.1 = k
    · simp [dictGet?, hpk]
    · simpa [dictGet?, hpk] using ih

theorem find_path_subgraph_cache (st : GraphState) (source target : String)
    (et : Option String) :
    (find_path st source target et).2.subgraph_cache
      = (search_target_graph st et).2.subgraph_cache := by
  unfold find_path
  dsimp only
  split <;> rfl

theorem get_subgraph_caches (st : GraphState) (et : String) :
    (dictGet? (get_subgraph st et).2.subgraph_cache et).isSome := by
  unfold get_subgraph
  cases hg : dictGet? st.subgraph_cache et with
  | some g => simpa using congrArg Option.isSome hg
  | none => exact dictGet?_append_single_isSome st.subgraph_cache et _

theorem find_path_caches_subgraph (st : GraphState) (source target et : String)
    (hne : et ≠ empty_str) :
    (dictGet? (find_path st source target (some et)).2.subgraph_cache et).isSome := by
  rw [find_path_subgraph_cache]
  have hsg : search_target_graph st (some et) = get_subgraph st et := by
    simp only [search_target_graph]
    rw [if_neg (by simp [hne])]
  rw [hsg]
  exact get_subgraph_caches st et

theorem add_transform_subgraph_cache (st : GraphState) (t : AnyTransform)
    (key : String) : (add_transform st t key).subgraph_cache = st.subgraph_cache := by
  cases t <;> rfl

/-- Claim C10: once `find_path` has been run with a (non-empty) edge class, a
transform registered afterwards via `add_transform` under that same class is
invisible to every later class-restricted query: the query outcome after the
registration coincides with the outcome before it, for all endpoints — the
`lru_cache` on `_cached_subgraph` keys on the (identity-fixed) graph object
and the class string and is never invalidated. -/
theorem c10_stale_subgraph_cache (st : GraphState) (a b c d et : String)
    (tr : AnyTransform) (hne : et ≠ empty_str) :
    (find_path (add_transform (find_path st a b (some et)).2 tr et) c d (some et)).1
      = (find_path (find_path st a b (some et)).2 c d (some et)).1 := by
  set st1 := (find_path st a b (some et)).2 with hst1
  obtain ⟨g, hg⟩ := Option.isSome_iff_exists.mp (find_path_caches_subgraph st a b et hne)
  rw [← hst1] at hg
  have hg2 : dictGet? (add_transform st1 tr et).subgraph_cache et = some g := by
    rw [add_transform_subgraph_cache]
    exact hg
  have h1 : search_target_graph st1 (some et) = (g, st1) := by
    simp only [search_target_graph]
    rw [if_neg (by simp [hne])]
    unfold get_subgraph
    rw [hg]
  have h2 : search_target_graph (add_transform st1 tr et) (some et)
      = (g, add_transform st1 tr et) := by
    simp only [search_target_graph]
    rw [if_neg (by simp [hne])]
    unfold get_subgraph
    rw [hg2]
  clear_value st1
  unfold find_path
  dsimp only
  rw [h1, h2]
  cases shortest_path g c d with
  | ok p => rfl
  | error e => cases e <;> rfl

/-- Chain state for the C10 witness: surface edges `A -> B -> C`. -/
def stW10 : GraphState :=
  { graph :=
      { nodes := [sA, sB, sC]
        node_data := []
        edges := [((sA, sB, surface_to_surface_key), ⟨{}, 1⟩),
                  ((sB, sC, surface_to_surface_key), ⟨{}, 1⟩)] }
    cache := {}
    subgraph_cache := []
    path_queries := [] }

/-- A direct `A -> C` surface transform registered after the first query. -/
def trW10 : AnyTransform :=
  .surface
    { name := "tAC"
      description := "surface transform from A to C"
      file_path := "ac.surf.gii"
      source_space := sA
      target_space := sC
      density := den32k
      hemisphere := left_str
      resource_type := sphere_str
      weight := 1 }

/-- Witness for C10: after querying `A -> C`, registering a direct
`surface_to_surface` edge `A -> C`, and querying again, the outcome is the
one computed on the pre-registration subgraph. -/
theorem c10_stale_subgraph_cache_witness :
    (find_path (add_transform (find_path stW10 sA sC (some surface_to_surface_key)).2
        trW10 surface_to_surface_key) sA sC (some surface_to_surface_key)).1
      = (find_path (find_path stW10 sA sC (some surface_to_surface_key)).2
        sA sC (some surface_to_surface_key)).1 :=
  c10_stale_subgraph_cache stW10 sA sC sA sC surface_to_surface_key trW10 (by decide)

/-! ### C3 — registrations of completed hops survive a later-hop failure -/

theorem compose_next_hop_preserves (ext : ExtOp) (st : GraphState)
    (path : List String) (hop_idx : Nat) (next_space : String)
    (cur : SurfaceTransform) (source density hemisphere out : String)
    (add_edge : Bool) (κ : SurfaceTransformKey)
    (h : (dictGet? st.cache.surface_transform κ).isSome = true) :
    (dictGet? (compose_next_hop ext st path hop_idx next_space cur source density
      hemisphere out add_edge).2.cache.surface_transform κ).isSome = true := by
  unfold compose_next_hop
  dsimp only
  split
  · exact h
  · split
    · exact dictGet?_dictInsert_isSome _ _ _ _ h
    · exact h

theorem compose_hops_preserves (ext : ExtOp) (path : List String)
    (source density hemisphere out : String) (add_edge : Bool)
    (κ : SurfaceTransformKey) :
    ∀ (rest : List String) (st : GraphState) (hop_idx : Nat)
      (cur : SurfaceTransform),
    (dictGet? st.cache.surface_transform κ).isSome = true →
    (dictGet? (compose_hops ext st path hop_idx rest cur source density hemisphere
      out add_edge).2.cache.surface_transform κ).isSome = true := by
  intro rest
  induction rest with
  | nil => intro st hop_idx cur h; exact h
  | cons next rest1 ih =>
    intro st hop_idx cur h
    unfold compose_hops
    cases hstep : compose_next_hop ext st path hop_idx next cur source density
        hemisphere out add_edge with
    | mk r st1 =>
      have hpres := compose_next_hop_preserves ext st path hop_idx next cur source
        density hemisphere out add_edge κ h
      rw [hstep] at hpres
      cases r with
      | error e => exact hpres
      | ok t => exact ih st1 (hop_idx + 1) t hpres

theorem compose_next_hop_registers (ext : ExtOp) (st : GraphState)
    (path : List String) (hop_idx : Nat) (next_space : String)
    (cur : SurfaceTransform) (source density hemisphere out : String)
    (t : SurfaceTransform) (st1 : GraphState)
    (h : compose_next_hop ext st path hop_idx next_space cur source density
      hemisphere out true = (.ok t, st1)) :
    dictGet? st1.cache.surface_transform (surfaceTransformKeyOf t) = some t := by
  unfold compose_next_hop at h
  dsimp only at h
  split at h
  · simp at h
  · rw [if_pos rfl] at h
    simp only [Prod.mk.injEq] at h
    obtain ⟨h1, h2⟩ := h
    injection h1 with ht
    subst ht
    subst h2
    exact dictGet?_dictInsert_self _ _ _

/-- Claim C3: during a multi-hop composition with edge registration, once a
hop succeeds and registers its derived transform, that key remains present in
the `surface_transform` table even when the remaining hops end in an error —
the state carried by the error still contains it, with no rollback. -/
theorem c3_no_rollback_on_failure (ext : ExtOp) (st : GraphState)
    (path : List String) (hop_idx : Nat) (next_space : String)
    (cur : SurfaceTransform) (source density hemisphere out : String)
    (t : SurfaceTransform) (st1 : GraphState) (rest : List String) (e : PyErr)
    (st2 : GraphState)
    (h1 : compose_next_hop ext st path hop_idx next_space cur source density
      hemisphere out true = (.ok t, st1))
    (h2 : compose_hops ext st1 path (hop_idx + 1) rest t source density hemisphere
      out true = (.error e, st2)) :
    (dictGet? st2.cache.surface_transform (surfaceTransformKeyOf t)).isSome = true := by
  have hreg := compose_next_hop_registers ext st path hop_idx next_space cur source
    density hemisphere out t st1 h1
  have hpres := compose_hops_preserves ext path source density hemisphere out true
    (surfaceTransformKeyOf t) rest st1 (hop_idx + 1) t (by simp [hreg])
  rw [h2] at hpres
  exact hpres

def extOk : ExtOp := fun _ _ _ out => .ok out

def outW : String := "out/final.surf.gii"

def pathW3 : List String := [sA, sB, sC, sD]

/-- The pre-fetched `A -> B` transform accumulated before hop 2. -/
def tW3ab : SurfaceTransform :=
  { name := "tab"
    description := "surface transform from A to B"
    file_path := "ab.surf.gii"
    source_space := sA
    target_space := sB
    density := den32k
    hemisphere := left_str
    resource_type := sphere_str
    weight := 1 }

/-- State with exactly the resources hop 2 (`A -> C` through `B`) needs and
nothing for hop 3 (no atlases or transforms around `C -> D`). -/
def stW3 : GraphState :=
  { graph := {}
    cache :=
      { surface_atlas :=
          [((sB, den32k, left_str, sphere_str),
            { name := "aB"
              description := "sphere atlas of B"
              file_path := "b.surf.gii"
              space := sB
              density := den32k
              hemisphere := left_str
              resource_type := sphere_str })]
        surface_transform :=
          [((sB, sC, den32k, left_str, sphere_str),
            { name := "tbc"
              description := "surface transform from B to C"
              file_path := "bc.surf.gii"
              source_space := sB
              target_space := sC
              density := den32k
              hemisphere := left_str
              resource_type := sphere_str
              weight := 1 })]
        volume_atlas := []
        volume_transform := [] }
    subgraph_cache := []
    path_queries := [] }

def hopW3 : Except PyErr SurfaceTransform × GraphState :=
  compose_next_hop extOk stW3 pathW3 2 sC tW3ab sA den32k left_str outW true

def tW3ac : SurfaceTransform :=
  match hopW3.1 with
  | .ok t => t
  | .error _ => default

/-- Witness for C3: hop 2 succeeds and registers `A -> C`; hop 3 then fails
with `NoCommonDensity(C, D)`, and the registered key is still present in the
final (erroring) state. -/
theorem c3_no_rollback_on_failure_witness :
    (dictGet? (compose_hops extOk hopW3.2 pathW3 3 [sD] tW3ac sA den32k left_str
      outW true).2.cache.surface_transform
      (surfaceTransformKeyOf tW3ac)).isSome = true :=
  c3_no_rollback_on_failure extOk stW3 pathW3 2 sC tW3ab sA den32k left_str outW
    tW3ac hopW3.2 [sD] (.noCommonDensity sC sD)
    (compose_hops extOk hopW3.2 pathW3 3 [sD] tW3ac sA den32k left_str outW true).2
    rfl rfl

/-! ### C8 — composed transforms carry weight = number of hops replaced -/

theorem compose_next_hop_ok_weight (ext : ExtOp) (st : GraphState)
    (path : List String) (hop_idx : Nat) (next_space : String)
    (cur : SurfaceTransform) (source density hemisphere out : String)
    (add_edge : Bool) (t : SurfaceTransform) (st1 : GraphState)
    (h : compose_next_hop ext st path hop_idx next_space cur source density
      hemisphere out add_edge = (.ok t, st1)) : t.weight = (hop_idx : Rat) := by
  unfold compose_next_hop at h
  dsimp only at h
  split at h
  · simp at h
  · split at h <;>
      (simp only [Prod.mk.injEq] at h
       obtain ⟨h1, h2⟩ := h
       injection h1 with ht
       subst ht
       rfl)

theorem compose_hops_ok_weight (ext : ExtOp) (path : List String)
    (source density hemisphere out : String) (add_edge : Bool) :
    ∀ (rest : List String), rest ≠ [] →
    ∀ (st : GraphState) (hop_idx : Nat) (cur t : SurfaceTransform)
      (st1 : GraphState),
    compose_hops ext st path hop_idx rest cur source density hemisphere out
      add_edge = (.ok t, st1) →
    t.weight = ((hop_idx + rest.length - 1 : Nat) : Rat) := by
  intro rest
  induction rest with
  | nil => intro h; exact absurd rfl h
  | cons next rest1 ih =>
    intro _ st hop_idx cur t st1 hcomp
    unfold compose_hops at hcomp
    cases hstep : compose_next_hop ext st path hop_idx next cur source density
        hemisphere out add_edge with
    | mk r st2 =>
      rw [hstep] at hcomp
      cases r with
      | error e => simp at hcomp
      | ok t2 =>
        by_cases hr : rest1 = []
        · subst hr
          unfold compose_hops at hcomp
          simp only [Prod.mk.injEq] at hcomp
          obtain ⟨h1, h2⟩ := hcomp
          injection h1 with ht
          subst ht
          exact compose_next_hop_ok_weight ext st path hop_idx next cur source
            density hemisphere out add_edge _ _ hstep
        · have := ih hr st2 (hop_idx + 1) t2 t st1 hcomp
          rw [this]
          have hlen : (hop_idx + 1) + rest1.length - 1
              = hop_idx + (next :: rest1).length - 1 := by
            simp only [List.length_cons]
            omega
          rw [hlen]

/-- Claim C8: a transform derived by multi-hop composition carries weight
equal to the number of direct hops it replaces — the hop at path position `i`
produces weight `i` (first conjunct), and a full composition along a path of
`n + 1` spaces produces a final transform of weight `n` (second conjunct). -/
theorem c8_composed_weights :
    (∀ (ext : ExtOp) (st : GraphState) (path : List String) (hop_idx : Nat)
        (next_space : String) (cur : SurfaceTransform)
        (source density hemisphere out : String) (add_edge : Bool)
        (t : SurfaceTransform) (st1 : GraphState),
      compose_next_hop ext st path hop_idx next_space cur source density hemisphere
        out add_edge = (.ok t, st1) → t.weight = (hop_idx : Rat)) ∧
    (∀ (ext : ExtOp) (st : GraphState) (path : List String)
        (density hemisphere out : String) (add_edge : Bool)
        (t : SurfaceTransform) (st1 : GraphState),
      3 ≤ path.length →
      compose_multihop ext st path density hemisphere out add_edge = (.ok t, st1) →
      t.weight = ((path.length - 1 : Nat) : Rat)) := by
  constructor
  · exact compose_next_hop_ok_weight
  · intro ext st path density hemisphere out add_edge t st1 hlen hcomp
    cases path with
    | nil => simp at hlen
    | cons p0 path1 =>
      cases path1 with
      | nil => simp at hlen
      | cons p1 rest =>
        unfold compose_multihop at hcomp
        dsimp only at hcomp
        cases hfetch : fetch_surface_transform st.cache p0 p1 density hemisphere
            sphere_str with
        | none => rw [hfetch] at hcomp; simp at hcomp
        | some t0 =>
          rw [hfetch] at hcomp
          have hrne : rest ≠ [] := by
            intro hr
            subst hr
            simp at hlen
          have := compose_hops_ok_weight ext (p0 :: p1 :: rest) p0 density
            hemisphere out add_edge rest hrne st 2 t0 t st1 hcomp
          rw [this]
          have hlen2 : 2 + rest.length - 1 = (p0 :: p1 :: rest).length - 1 := by
            simp only [List.length_cons]
            omega
          rw [hlen2]

/-! ### C1 — the concrete three-space composition scenario -/

/-- Build definition with spaces `X`, `Y`, `Z`, sphere atlases at `32k`, and
direct surface transforms `X -> Y` and `Y -> Z` at `32k`/left. -/
def dataW1 : GraphDef :=
  { nodes :=
      [{ name := sX, species := "primate", description := "space X"
         surfaces := [(den32k, [(sphere_str, [(left_str, "x_sphere.surf.gii")])])] },
       { name := sY, species := "primate", description := "space Y"
         surfaces := [(den32k, [(sphere_str, [(left_str, "y_sphere.surf.gii")])])] },
       { name := sZ, species := "primate", description := "space Z"
         surfaces := [(den32k, [(sphere_str, [(left_str, "z_sphere.surf.gii")])])] }]
    surface_to_surface :=
      [{ from_ := sX, to_ := sY
         surfaces := [(den32k, [(sphere_str, [(left_str, "xy.surf.gii")])])] },
       { from_ := sY, to_ := sZ
         surfaces := [(den32k, [(sphere_str, [(left_str, "yz.surf.gii")])])] }]
    volume_to_volume := [] }

/-- The state `GraphBuilder` produces from `dataW1`. -/
def stW1 : GraphState := (build_from_dict none empty_state dataW1).2

/-- The multi-hop run used by the C8 witness. -/
def mhW8 : Except PyErr SurfaceTransform × GraphState :=
  compose_multihop extOk stW1 [sX, sY, sZ] den32k left_str outW true

def tW8 : SurfaceTransform :=
  match mhW8.1 with
  | .ok t => t
  | .error _ => default

/-- Witness for C8: hop 2 of the `A -> C` composition carries weight 2, and
the full three-space composition `X -> Z` carries weight 2 = path length - 1. -/
theorem c8_composed_weights_witness :
    tW3ac.weight = ((2 : Nat) : Rat) ∧
    tW8.weight = (([sX, sY, sZ].length - 1 : Nat) : Rat) :=
  ⟨c8_composed_weights.1 extOk stW3 pathW3 2 sC tW3ab sA den32k left_str outW true
      tW3ac hopW3.2 rfl,
   c8_composed_weights.2 extOk stW1 [sX, sY, sZ] den32k left_str outW true tW8
      mhW8.2 (by decide) rfl⟩

/-- The multi-hop resolution `X -> Z` on `stW1` with edge registration
enabled (`add_edge = true`). -/
def rW1 : Except PyErr (Option SurfaceTransform) × GraphState :=
  resolve_sphere_transform extOk stW1 sX sZ den32k left_str outW true

def tW1 : SurfaceTransform :=
  match rW1.1 with
  | .ok (some t) => t
  | _ => default

/-- Claim C1, evaluated at its failing input (the `dataW1` build, resolving
`X -> Z` at `32k`/left with `add_edge = true`): the composition succeeds and
the derived `X -> Z` transform is inserted into the cache (the ResourceStore),
but — contrary to the claim and to the docstrings of
`SurfaceTransformOps` — the graph is left untouched: no
`surface_to_surface` edge `X -> Z` exists afterwards, and a subsequent
`find_path(X, Z, surface_to_surface)` still returns the three-element path
`[X, Y, Z]` rather than the direct `[X, Z]`.
(`_compose_next_hop` calls only `cache.add_surface_transform`; it never calls
`add_transform`/`add_edge` on the graph.) -/
theorem c1_no_graph_edge_registered :
    rW1.1 = .ok (some tW1) ∧
    tW1.source_space = sX ∧
    tW1.target_space = sZ ∧
    tW1.weight = 2 ∧
    dictGet? rW1.2.cache.surface_transform (sX, sZ, den32k, left_str, sphere_str)
      = some tW1 ∧
    rW1.2.graph = stW1.graph ∧
    (¬ ∃ w, ((sX, sZ, surface_to_surface_key), w) ∈ rW1.2.graph.edges) ∧
    (find_path rW1.2 sX sZ (some surface_to_surface_key)).1 = .ok [sX, sY, sZ] := by
  refine ⟨rfl, rfl, rfl, rfl, rfl, rfl, ?_, rfl⟩
  rintro ⟨w, hw⟩
  have hall : rW1.2.graph.edges.all
      (fun e => !(e.1.1 == sX && e.1.2.1 == sZ)) = true := rfl
  have hthis := List.all_eq_true.mp hall _ hw
  simp at hthis

/-! ### C2 — direct edge with missing exact transform -/

/-- Claim C2 (amended): when the path has exactly two spaces but the exact
`(source, target, density, hemisphere, "sphere")` transform is absent from
the ResourceStore, `_resolve_sphere_transform` does NOT raise: it returns
`None` (and the public `transform` then returns `None`).  The original claim
said it fails with a `NoTransform` error; the code reserves that error for
the multi-hop branch. -/
theorem c2_direct_edge_missing_returns_none (ext : ExtOp) (st : GraphState)
    (source target density hemisphere out : String) (add_edge : Bool)
    (p : List String) (st1 : GraphState)
    (hne : source ≠ target)
    (hfp : find_path st source target (some surface_to_surface_key) = (.ok p, st1))
    (hlen : p.length = 2)
    (habsent : fetch_surface_transform st.cache source target density hemisphere
      sphere_str = none) :
    resolve_sphere_transform ext st source target density hemisphere out add_edge
      = (.ok none, st1) := by
  have hc : st1.cache = st.cache := by
    have h := find_path_cache st source target (some surface_to_surface_key)
    rw [hfp] at h
    exact h
  unfold resolve_sphere_transform
  rw [if_neg (by simp [hne])]
  rw [hfp]
  dsimp only
  rw [if_neg (by omega)]
  rw [if_pos (by simp [hlen])]
  rw [hc, habsent]

/-- Build definition whose `A -> B` surface edge exists only at `32k`: the
graph has the edge, the store has no `10k` entry. -/
def dataW2 : GraphDef :=
  { nodes :=
      [{ name := sA, species := "primate", description := "space A"
         surfaces := [] },
       { name := sB, species := "primate", description := "space B"
         surfaces := [] }]
    surface_to_surface :=
      [{ from_ := sA, to_ := sB
         surfaces := [(den32k, [(sphere_str, [(left_str, "ab.surf.gii")])])] }]
    volume_to_volume := [] }

def stW2 : GraphState := (build_from_dict none empty_state dataW2).2

def rW2 : Except PyErr (Option SurfaceTransform) × GraphState :=
  resolve_sphere_transform extOk stW2 sA sB den10k left_str outW true

/-- Counterexample to C2 as stated: on `stW2`, the `A -> B` path is a direct
edge and the exact `(A, B, 10k, left, sphere)` transform is absent, yet the
operation returns successfully with no value (`.ok none`) instead of failing
with a `NoTransform` error. -/
theorem c2_counterexample :
    (find_path stW2 sA sB (some surface_to_surface_key)).1 = .ok [sA, sB] ∧
    fetch_surface_transform stW2.cache sA sB den10k left_str sphere_str = none ∧
    rW2.1 = .ok none :=
  ⟨rfl, rfl, rfl⟩

/-- Witness for the amended C2 at the `stW2` scenario. -/
theorem c2_direct_edge_missing_returns_none_witness :
    resolve_sphere_transform extOk stW2 sA sB den10k left_str outW true
      = (.ok none, (find_path stW2 sA sB (some surface_to_surface_key)).2) :=
  c2_direct_edge_missing_returns_none extOk stW2 sA sB den10k left_str outW true
    [sA, sB] (find_path stW2 sA sB (some surface_to_surface_key)).2
    (by decide) rfl rfl rfl

/-! ### C4 — highest common density -/

theorem pyMaxGo_spec (key : String → Option Int) :
    ∀ (xs : List String) (best : String) (bkey : Int),
    key best = some bkey →
    (∀ x ∈ xs, (key x).isSome = true) →
    ∃ r rk, pyMaxGo key best bkey xs = .ok r ∧ key r = some rk ∧ bkey ≤ rk ∧
      (r = best ∨ r ∈ xs) ∧ (∀ x ∈ xs, ∀ kx, key x = some kx → kx ≤ rk) := by
  intro xs
  induction xs with
  | nil =>
    intro best bkey hb _
    exact ⟨best, bkey, rfl, hb, le_refl bkey, Or.inl rfl, by simp⟩
  | cons x xs ih =>
    intro best bkey hb hall
    obtain ⟨kx, hkx⟩ := Option.isSome_iff_exists.mp (hall x (List.mem_cons_self x xs))
    have hall1 : ∀ y ∈ xs, (key y).isSome = true :=
      fun y hy => hall y (List.mem_cons_of_mem x hy)
    unfold pyMaxGo
    rw [hkx]
    dsimp only
    by_cases hlt : bkey < kx
    · rw [if_pos hlt]
      obtain ⟨r, rk, h1, h2, h3, h4, h5⟩ := ih x kx hkx hall1
      refine ⟨r, rk, h1, h2, le_of_lt (lt_of_lt_of_le hlt h3), ?_, ?_⟩
      · rcases h4 with h | h
        · exact Or.inr (h ▸ List.mem_cons_self x xs)
        · exact Or.inr (List.mem_cons_of_mem x h)
      · intro y hy ky hky
        rcases List.mem_cons.mp hy with h | h
        · subst h
          rw [hky] at hkx
          injection hkx with hkk
          rw [← hkk] at h3
          exact h3
        · exact h5 y h ky hky
    · rw [if_neg hlt]
      obtain ⟨r, rk, h1, h2, h3, h4, h5⟩ := ih best bkey hb hall1
      refine ⟨r, rk, h1, h2, h3, ?_, ?_⟩
      · rcases h4 with h | h
        · exact Or.inl h
        · exact Or.inr (List.mem_cons_of_mem x h)
      · intro y hy ky hky
        rcases List.mem_cons.mp hy with h | h
        · subst h
          rw [hky] at hkx
          injection hkx with hkk
          rw [hkk]
          exact le_trans (le_of_not_lt hlt) h3
        · exact h5 y h ky hky

theorem pyMax_spec (key : String → Option Int) (xs : List String)
    (hne : xs ≠ []) (hall : ∀ x ∈ xs, (key x).isSome = true) :
    ∃ r rk, pyMax key xs = .ok r ∧ key r = some rk ∧ r ∈ xs ∧
      ∀ x ∈ xs, ∀ kx, key x = some kx → kx ≤ rk := by
  cases xs with
  | nil => exact absurd rfl hne
  | cons x xs =>
    obtain ⟨kx, hkx⟩ := Option.isSome_iff_exists.mp (hall x (List.mem_cons_self x xs))
    have hall1 : ∀ y ∈ xs, (key y).isSome = true :=
      fun y hy => hall y (List.mem_cons_of_mem x hy)
    obtain ⟨r, rk, h1, h2, h3, h4, h5⟩ := pyMaxGo_spec key xs x kx hkx hall1
    refine ⟨r, rk, ?_, h2, ?_, ?_⟩
    · unfold pyMax
      dsimp only
      rw [hkx]
      exact h1
    · rcases h4 with h | h
      · exact h ▸ List.mem_cons_self x xs
      · exact List.mem_cons_of_mem x h
    · intro y hy ky hky
      rcases List.mem_cons.mp hy with h | h
      · subst h
        rw [hky] at hkx
        injection hkx with hkk
        rw [hkk]
        exact h3
      · exact h5 y h ky hky

/-- Claim C4: provided every density in the intersection of the mid space
atlas densities with the mid-to-target transform densities parses under
`_get_density_key` (trailing `k`/`K` stripped, else bare integer),
`find_common_density` raises `NoCommonDensity` exactly when the intersection
is empty, and otherwise returns a member of the intersection whose numeric
key is greatest. -/
theorem c4_find_common_density_spec (c : GraphCache) (mid target : String)
    (hall : ∀ d ∈ common_densities c mid target,
      (_get_density_key d).isSome = true) :
    (common_densities c mid target = [] →
      find_common_density c mid target = .error (.noCommonDensity mid target)) ∧
    (common_densities c mid target ≠ [] →
      ∃ d dk, find_common_density c mid target = .ok d ∧
        _get_density_key d = some dk ∧
        d ∈ common_densities c mid target ∧
        ∀ e ∈ common_densities c mid target, ∀ ek,
          _get_density_key e = some ek → ek ≤ dk) := by
  constructor
  · intro hempty
    unfold find_common_density
    rw [if_pos (by simp [hempty])]
  · intro hne
    obtain ⟨r, rk, h1, h2, h3, h4⟩ :=
      pyMax_spec _get_density_key (common_densities c mid target) hne hall
    refine ⟨r, rk, ?_, h2, h3, h4⟩
    unfold find_common_density
    rw [if_neg (by simp [hne])]
    exact h1

/-- A cache with `Y` atlases at `32k`/`41k` and `Y -> Z` transforms at both
densities. -/
def cacheW4 : GraphCache :=
  { surface_atlas :=
      [((sY, den32k, left_str, sphere_str),
        { name := "y32", description := "sphere of Y at 32k"
          file_path := "y32.surf.gii", space := sY, density := den32k
          hemisphere := left_str, resource_type := sphere_str }),
       ((sY, den41k, left_str, sphere_str),
        { name := "y41", description := "sphere of Y at 41k"
          file_path := "y41.surf.gii", space := sY, density := den41k
          hemisphere := left_str, resource_type := sphere_str })]
    surface_transform :=
      [((sY, sZ, den32k, left_str, sphere_str),
        { name := "yz32", description := "transform Y to Z at 32k"
          file_path := "yz32.surf.gii", source_space := sY, target_space := sZ
          density := den32k, hemisphere := left_str, resource_type := sphere_str
          weight := 1 }),
       ((sY, sZ, den41k, left_str, sphere_str),
        { name := "yz41", description := "transform Y to Z at 41k"
          file_path := "yz41.surf.gii", source_space := sY, target_space := sZ
          density := den41k, hemisphere := left_str, resource_type := sphere_str
          weight := 1 })]
    volume_atlas := []
    volume_transform := [] }

/-- Witness for C4 on `cacheW4` (the returned maximizer evaluates to "41k"). -/
theorem c4_find_common_density_spec_witness :
    ∃ d dk, find_common_density cacheW4 sY sZ = .ok d ∧
      _get_density_key d = some dk ∧
      d ∈ common_densities cacheW4 sY sZ ∧
      ∀ e ∈ common_densities cacheW4 sY sZ, ∀ ek,
        _get_density_key e = some ek → ek ≤ dk :=
  (c4_find_common_density_spec cacheW4 sY sZ (by decide)).2 (by decide)

/-! ### C9 — round-trip of builder insertions -/

/-- Fold of keyed insert-or-overwrite over a resource list. -/
def fold_insert {K V : Type} [DecidableEq K] (keyf : V → K) (d : List (K × V))
    (xs : List V) : List (K × V) :=
  xs.foldl (fun d x => dictInsert d (keyf x) x) d

/-- The last element of `xs` whose key is `k`, if any — the survivor of
insert-or-overwrite. -/
def last_with_key {K V : Type} [DecidableEq K] (keyf : V → K) (k : K) :
    List V → Option V
  | [] => none
  | x :: xs =>
    match last_with_key keyf k xs with
    | some y => some y
    | none => if keyf x == k then some x else none

theorem fold_insert_append {K V : Type} [DecidableEq K] (keyf : V → K)
    (d : List (K × V)) (xs ys : List V) :
    fold_insert keyf d (xs ++ ys) = fold_insert keyf (fold_insert keyf d xs) ys :=
  List.foldl_append _ _ _ _

theorem dictGet?_fold_insert {K V : Type} [DecidableEq K] (keyf : V → K) :
    ∀ (xs : List V) (d : List (K × V)) (k : K),
    dictGet? (fold_insert keyf d xs) k
      = match last_with_key keyf k xs with
        | some y => some y
        | none => dictGet? d k := by
  intro xs
  induction xs with
  | nil => intro d k; rfl
  | cons x xs ih =>
    intro d k
    have hstep : fold_insert keyf d (x :: xs)
        = fold_insert keyf (dictInsert d (keyf x) x) xs := rfl
    rw [hstep, ih]
    cases hl : last_with_key keyf k xs with
    | some y => simp [last_with_key, hl]
    | none =>
      simp only [last_with_key, hl]
      rw [dictGet?_dictInsert]
      by_cases h : k = keyf x
      · subst h
        simp
      · have h2 : ¬ keyf x = k := fun hh => h hh.symm
        simp [h, h2]

theorem add_surface_atlases_cache :
    ∀ (as : List SurfaceAtlas) (c : GraphCache),
    c.add_surface_atlases as
      = { c with surface_atlas := fold_insert surfaceAtlasKeyOf c.surface_atlas as } := by
  intro as
  induction as with
  | nil => intro c; rfl
  | cons a as ih =>
    intro c
    show (c.add_surface_atlas a).add_surface_atlases as = _
    rw [ih]
    rfl

theorem add_volume_atlases_cache :
    ∀ (as : List VolumeAtlas) (c : GraphCache),
    c.add_volume_atlases as
      = { c with volume_atlas := fold_insert volumeAtlasKeyOf c.volume_atlas as } := by
  intro as
  induction as with
  | nil => intro c; rfl
  | cons a as ih =>
    intro c
    show (c.add_volume_atlas a).add_volume_atlases as = _
    rw [ih]
    rfl

theorem add_surface_transforms_cache :
    ∀ (ts : List SurfaceTransform) (c : GraphCache),
    c.add_surface_transforms ts
      = { c with surface_transform :=
            fold_insert surfaceTransformKeyOf c.surface_transform ts } := by
  intro ts
  induction ts with
  | nil => intro c; rfl
  | cons t ts ih =>
    intro c
    show (c.add_surface_transform t).add_surface_transforms ts = _
    rw [ih]
    rfl

theorem add_volume_transforms_cache :
    ∀ (ts : List VolumeTransform) (c : GraphCache),
    c.add_volume_transforms ts
      = { c with volume_transform :=
            fold_insert volumeTransformKeyOf c.volume_transform ts } := by
  intro ts
  induction ts with
  | nil => intro c; rfl
  | cons t ts ih =>
    intro c
    show (c.add_volume_transform t).add_volume_transforms ts = _
    rw [ih]
    rfl

theorem build_nodes_cache (data_dir : Option String) :
    ∀ (nds : List NodeDef) (st : GraphState),
    (build_nodes data_dir st nds).1 = .ok () →
    (build_nodes data_dir st nds).2.cache
      = { st.cache with
          surface_atlas := fold_insert surfaceAtlasKeyOf st.cache.surface_atlas
            (nds.flatMap (fun nd => parse_surfaces data_dir nd.name nd.description
              nd.surfaces))
          volume_atlas := fold_insert volumeAtlasKeyOf st.cache.volume_atlas
            (nds.flatMap (fun nd => parse_volumes data_dir nd.name nd.description
              nd.volumes)) } := by
  intro nds
  induction nds with
  | nil => intro st _; rfl
  | cons nd nds ih =>
    intro st h
    unfold build_nodes at h ⊢
    cases hb : build_node data_dir st nd with
    | mk r st1 =>
      rw [hb] at h
      cases r with
      | error e => simp at h
      | ok u =>
        dsimp only at h ⊢
        unfold build_node at hb
        split at hb
        · simp at hb
        · simp only [Prod.mk.injEq] at hb
          obtain ⟨_, hst1⟩ := hb
          have hcache : st1.cache
              = { st.cache with
                  surface_atlas := fold_insert surfaceAtlasKeyOf
                    st.cache.surface_atlas
                    (parse_surfaces data_dir nd.name nd.description nd.surfaces)
                  volume_atlas := fold_insert volumeAtlasKeyOf
                    st.cache.volume_atlas
                    (parse_volumes data_dir nd.name nd.description nd.volumes) } := by
            rw [← hst1]
            dsimp only
            rw [add_surface_atlases_cache, add_volume_atlases_cache]
          rw [ih st1 h, hcache]
          simp only [List.flatMap_cons, fold_insert_append]
  

theorem build_surface_edges_cache (data_dir : Option String) :
    ∀ (eds : List SurfaceEdgeDef) (st : GraphState),
    (build_surface_edges data_dir st eds).1 = .ok () →
    (build_surface_edges data_dir st eds).2.cache
      = { st.cache with
          surface_transform := fold_insert surfaceTransformKeyOf
            st.cache.surface_transform
            (eds.flatMap (fun ed => parse_surface_transforms data_dir ed.from_
              ed.to_ ed.surfaces)) } := by
  intro eds
  induction eds with
  | nil => intro st _; rfl
  | cons ed eds ih =>
    intro st h
    unfold build_surface_edges at h ⊢
    cases hb : build_surface_edge data_dir st ed with
    | mk r st1 =>
      rw [hb] at h
      cases r with
      | error e => simp at h
      | ok u =>
        dsimp only at h ⊢
        unfold build_surface_edge at hb
        split at hb
        · simp at hb
        · simp only [Prod.mk.injEq] at hb
          obtain ⟨_, hst1⟩ := hb
          have hcache : st1.cache
              = { st.cache with
                  surface_transform := fold_insert surfaceTransformKeyOf
                    st.cache.surface_transform
                    (parse_surface_transforms data_dir ed.from_ ed.to_
                      ed.surfaces) } := by
            rw [← hst1]
            dsimp only
            rw [add_surface_transforms_cache]
          rw [ih st1 h, hcache]
          simp only [List.flatMap_cons, fold_insert_append]

theorem build_volume_edges_cache (data_dir : Option String) :
    ∀ (eds : List VolumeEdgeDef) (st : GraphState),
    (build_volume_edges data_dir st eds).2.cache
      = { st.cache with
          volume_transform := fold_insert volumeTransformKeyOf
            st.cache.volume_transform
            (eds.flatMap (fun ed => parse_volume_transforms data_dir ed.from_
              ed.to_ ed.volumes)) } := by
  intro eds
  induction eds with
  | nil => intro st; rfl
  | cons ed eds ih =>
    intro st
    unfold build_volume_edges
    cases hb : build_volume_edge data_dir st ed with
    | mk r st1 =>
      unfold build_volume_edge at hb
      simp only [Prod.mk.injEq] at hb
      obtain ⟨hr, hst1⟩ := hb
      cases r with
      | error e => simp at hr
      | ok u =>
        dsimp only
        have hcache : st1.cache
            = { st.cache with
                volume_transform := fold_insert volumeTransformKeyOf
                  st.cache.volume_transform
                  (parse_volume_transforms data_dir ed.from_ ed.to_ ed.volumes) } := by
          rw [← hst1]
          dsimp only
          rw [add_volume_transforms_cache]
        rw [ih st1, hcache]
        simp only [List.flatMap_cons, fold_insert_append]

theorem build_volume_edges_ok (data_dir : Option String) :
    ∀ (eds : List VolumeEdgeDef) (st : GraphState),
    (build_volume_edges data_dir st eds).1 = .ok () := by
  intro eds
  induction eds with
  | nil => intro st; rfl
  | cons ed eds ih =>
    intro st
    unfold build_volume_edges
    cases hb : build_volume_edge data_dir st ed with
    | mk r st1 =>
      unfold build_volume_edge at hb
      simp only [Prod.mk.injEq] at hb
      obtain ⟨hr, hst1⟩ := hb
      cases r with
      | error e => simp at hr
      | ok u => exact ih st1

theorem build_from_dict_cache (data_dir : Option String) (data : GraphDef)
    (h : (build_from_dict data_dir empty_state data).1 = .ok ()) :
    (build_from_dict data_dir empty_state data).2.cache
      = { surface_atlas :=
            fold_insert surfaceAtlasKeyOf [] (all_surface_atlases data_dir data)
          surface_transform :=
            fold_insert surfaceTransformKeyOf [] (all_surface_transforms data_dir data)
          volume_atlas :=
            fold_insert volumeAtlasKeyOf [] (all_volume_atlases data_dir data)
          volume_transform :=
            fold_insert volumeTransformKeyOf [] (all_volume_transforms data_dir data) } := by
  unfold build_from_dict at h ⊢
  cases hn : build_nodes data_dir empty_state data.nodes with
  | mk r1 st1 =>
    rw [hn] at h
    cases r1 with
    | error e => simp at h
    | ok u =>
      dsimp only at h ⊢
      cases hs : build_surface_edges data_dir st1 data.surface_to_surface with
      | mk r2 st2 =>
        rw [hs] at h
        cases r2 with
        | error e => simp at h
        | ok u2 =>
          dsimp only at h ⊢
          have h1c : st1.cache
              = { empty_state.cache with
                  surface_atlas := fold_insert surfaceAtlasKeyOf
                    empty_state.cache.surface_atlas
                    (data.nodes.flatMap (fun nd => parse_surfaces data_dir nd.name
                      nd.description nd.surfaces))
                  volume_atlas := fold_insert volumeAtlasKeyOf
                    empty_state.cache.volume_atlas
                    (data.nodes.flatMap (fun nd => parse_volumes data_dir nd.name
                      nd.description nd.volumes)) } := by
            have hh := build_nodes_cache data_dir data.nodes empty_state
              (by rw [hn])
            rw [hn] at hh
            exact hh
          have h2c : st2.cache
              = { st1.cache with
                  surface_transform := fold_insert surfaceTransformKeyOf
                    st1.cache.surface_transform
                    (data.surface_to_surface.flatMap (fun ed =>
                      parse_surface_transforms data_dir ed.from_ ed.to_
                        ed.surfaces)) } := by
            have hh := build_surface_edges_cache data_dir data.surface_to_surface
              st1 (by rw [hs])
            rw [hs] at hh
            exact hh
          rw [build_volume_edges_cache data_dir data.volume_to_volume st2]
          rw [h2c, h1c]
          rfl

/-- Claim C9 (amended): for each of the four resource kinds, a resource
inserted during graph building is returned identically by the exact-key
getter applied to its own key fields, provided it is the last resource the
build inserted under its key (insert-or-overwrite means a later duplicate key
wins; see the counterexample for the unamended claim). -/
theorem c9_round_trip_last_insert (data_dir : Option String) (data : GraphDef)
    (hok : (build_from_dict data_dir empty_state data).1 = .ok ()) :
    (∀ a : SurfaceAtlas,
      last_with_key surfaceAtlasKeyOf (surfaceAtlasKeyOf a)
        (all_surface_atlases data_dir data) = some a →
      (build_from_dict data_dir empty_state data).2.cache.get_surface_atlas
        a.space a.density a.hemisphere a.resource_type = some a) ∧
    (∀ t : SurfaceTransform,
      last_with_key surfaceTransformKeyOf (surfaceTransformKeyOf t)
        (all_surface_transforms data_dir data) = some t →
      (build_from_dict data_dir empty_state data).2.cache.get_surface_transform
        t.source_space t.target_space t.density t.hemisphere t.resource_type
        = some t) ∧
    (∀ a : VolumeAtlas,
      last_with_key volumeAtlasKeyOf (volumeAtlasKeyOf a)
        (all_volume_atlases data_dir data) = some a →
      (build_from_dict data_dir empty_state data).2.cache.get_volume_atlas
        a.space a.resolution a.resource_type = some a) ∧
    (∀ t : VolumeTransform,
      last_with_key volumeTransformKeyOf (volumeTransformKeyOf t)
        (all_volume_transforms data_dir data) = some t →
      (build_from_dict data_dir empty_state data).2.cache.get_volume_transform
        t.source_space t.target_space t.resolution t.resource_type = some t) := by
  refine ⟨?_, ?_, ?_, ?_⟩
  · intro a hlast
    rw [GraphCache.get_surface_atlas, build_from_dict_cache data_dir data hok]
    show dictGet? (fold_insert surfaceAtlasKeyOf []
      (all_surface_atlases data_dir data)) (surfaceAtlasKeyOf a) = some a
    rw [dictGet?_fold_insert, hlast]
  · intro t hlast
    rw [GraphCache.get_surface_transform, build_from_dict_cache data_dir data hok]
    show dictGet? (fold_insert surfaceTransformKeyOf []
      (all_surface_transforms data_dir data)) (surfaceTransformKeyOf t) = some t
    rw [dictGet?_fold_insert, hlast]
  · intro a hlast
    rw [GraphCache.get_volume_atlas, build_from_dict_cache data_dir data hok]
    show dictGet? (fold_insert volumeAtlasKeyOf []
      (all_volume_atlases data_dir data)) (volumeAtlasKeyOf a) = some a
    rw [dictGet?_fold_insert, hlast]
  · intro t hlast
    rw [GraphCache.get_volume_transform, build_from_dict_cache data_dir data hok]
    show dictGet? (fold_insert volumeTransformKeyOf []
      (all_volume_transforms data_dir data)) (volumeTransformKeyOf t) = some t
    rw [dictGet?_fold_insert, hlast]

def res1mm : String := "1mm"

def t1w : String := "T1w"

/-- Build definition with one resource of each of the four kinds. -/
def dataW9 : GraphDef :=
  { nodes :=
      [{ name := sA, species := "primate", description := "space A"
         surfaces := [(den32k, [(sphere_str, [(left_str, "a_sphere.surf.gii")])])]
         volumes := [(res1mm, [(t1w, "a_t1w.nii.gz")])] },
       { name := sB, species := "primate", description := "space B"
         surfaces := [] }]
    surface_to_surface :=
      [{ from_ := sA, to_ := sB
         surfaces := [(den32k, [(sphere_str, [(left_str, "ab.surf.gii")])])] }]
    volume_to_volume :=
      [{ from_ := sA, to_ := sB
         volumes := [(res1mm, [(t1w, "ab_warp.nii.gz")])] }] }

def aW9 : SurfaceAtlas :=
  { name := sA ++ "_" ++ den32k ++ "_" ++ left_str ++ "_" ++ sphere_str
    description := "space A"
    file_path := "a_sphere.surf.gii"
    space := sA
    density := den32k
    hemisphere := left_str
    resource_type := sphere_str }

def tW9 : SurfaceTransform :=
  { name := sA ++ "_to_" ++ sB ++ "_" ++ den32k ++ "_" ++ left_str ++ "_" ++ sphere_str
    description := "surf2surf transform from " ++ sA ++ " to " ++ sB
    file_path := "ab.surf.gii"
    source_space := sA
    target_space := sB
    density := den32k
    hemisphere := left_str
    resource_type := sphere_str
    weight := 1 }

def vaW9 : VolumeAtlas :=
  { name := sA ++ "_" ++ res1mm ++ "_" ++ t1w
    description := "space A"
    file_path := "a_t1w.nii.gz"
    space := sA
    resolution := res1mm
    resource_type := t1w }

def vtW9 : VolumeTransform :=
  { name := sA ++ "_to_" ++ sB ++ "_" ++ res1mm ++ "_" ++ t1w
    description := "vol2vol transform from " ++ sA ++ " to " ++ sB
    file_path := "ab_warp.nii.gz"
    source_space := sA
    target_space := sB
    resolution := res1mm
    resource_type := t1w
    weight := 1 }

/-- Witness for C9 on `dataW9`: each of the four inserted resources is
returned identically by its exact-key getter. -/
theorem c9_round_trip_last_insert_witness :
    (build_from_dict none empty_state dataW9).2.cache.get_surface_atlas
      sA den32k left_str sphere_str = some aW9 ∧
    (build_from_dict none empty_state dataW9).2.cache.get_surface_transform
      sA sB den32k left_str sphere_str = some tW9 ∧
    (build_from_dict none empty_state dataW9).2.cache.get_volume_atlas
      sA res1mm t1w = some vaW9 ∧
    (build_from_dict none empty_state dataW9).2.cache.get_volume_transform
      sA sB res1mm t1w = some vtW9 :=
  ⟨(c9_round_trip_last_insert none dataW9 rfl).1 aW9 (by decide),
   (c9_round_trip_last_insert none dataW9 rfl).2.1 tW9 (by decide),
   (c9_round_trip_last_insert none dataW9 rfl).2.2.1 vaW9 (by decide),
   (c9_round_trip_last_insert none dataW9 rfl).2.2.2 vtW9 (by decide)⟩

/-- Build definition listing the same node name twice with the same surface
key but different artifact files. -/
def dataX9 : GraphDef :=
  { nodes :=
      [{ name := sA, species := "primate", description := "first entry"
         surfaces := [(den32k, [(sphere_str, [(left_str, "p1.surf.gii")])])] },
       { name := sA, species := "primate", description := "second entry"
         surfaces := [(den32k, [(sphere_str, [(left_str, "p2.surf.gii")])])] }]
    surface_to_surface := []
    volume_to_volume := [] }

/-- The first of the two atlases `dataX9` inserts. -/
def aX9 : SurfaceAtlas :=
  { name := sA ++ "_" ++ den32k ++ "_" ++ left_str ++ "_" ++ sphere_str
    description := "first entry"
    file_path := "p1.surf.gii"
    space := sA
    density := den32k
    hemisphere := left_str
    resource_type := sphere_str }

/-- Counterexample to C9 as stated: `aX9` is inserted during the (successful)
build of `dataX9`, yet the exact-key getter applied to its own key fields
afterwards does not return it — a later insertion with the same key
overwrote it (last write wins). -/
theorem c9_counterexample :
    (build_from_dict none empty_state dataX9).1 = .ok () ∧
    aX9 ∈ all_surface_atlases none dataX9 ∧
    (build_from_dict none empty_state dataX9).2.cache.get_surface_atlas
      sA den32k left_str sphere_str ≠ some aX9 := by
  refine ⟨rfl, by decide, by decide⟩
